import Mathlib

/-!
Verification of the per-connection transport core of the msquic QUIC
implementation (src/core/connection.c), as a shallow embedding in Lean 4.

Machine integers are modelled as `Nat` with explicit reduction modulo
`2^32` / `2^64` at the points where the C code can wrap.  Each definition
mirrors one function (or one self-contained fragment) of the source; the
corresponding source lines are cited in the doc comments.
-/

/-- `UINT64_MAX`, the sentinel expiration time for unused timer slots. -/
def UINT64_MAX : Nat := 18446744073709551615

/-- `UINT32_MAX`, the initial value of `Connection->MinRtt` (connection.c:85). -/
def UINT32_MAX : Nat := 4294967295

/-- Modulus of 32-bit unsigned arithmetic. -/
def U32_MOD : Nat := 4294967296

/-- Modulus of 64-bit unsigned arithmetic. -/
def U64_MOD : Nat := 18446744073709551616

/-! ## RTT estimation (QuicConnUpdateRtt, connection.c:599-641) -/

/-- The RTT-related fields of `QUIC_CONNECTION`.  All time quantities are in
microseconds and are 32-bit unsigned in the source. -/
structure RttState where
  smoothedRtt : Nat
  rttVariance : Nat
  minRtt : Nat
  maxRtt : Nat
  latestRttSample : Nat
  gotFirstRttSample : Bool
deriving Repr, DecidableEq

/-- `QuicConnUpdateRtt` (connection.c:599-641).  Updates the RTT fields from
the latest sample and returns the updated state together with the
`RttUpdated` boolean result.  The `uint32_t` arithmetic of the source is
modelled by reducing each compound expression modulo `2^32`. -/
def QuicConnUpdateRtt (s : RttState) (latestRtt : Nat) : RttState × Bool :=
  let s := { s with
    latestRttSample := latestRtt
    minRtt := if latestRtt < s.minRtt then latestRtt else s.minRtt
    maxRtt := if latestRtt > s.maxRtt then latestRtt else s.maxRtt }
  if !s.gotFirstRttSample then
    ({ s with
        gotFirstRttSample := true
        smoothedRtt := latestRtt
        rttVariance := latestRtt / 2 }, true)
  else
    let prevRtt := s.smoothedRtt
    let rttVariance :=
      if s.smoothedRtt > latestRtt then
        ((3 * s.rttVariance + s.smoothedRtt - latestRtt) % U32_MOD) / 4
      else
        ((3 * s.rttVariance + latestRtt - s.smoothedRtt) % U32_MOD) / 4
    let smoothedRtt := ((7 * s.smoothedRtt + latestRtt) % U32_MOD) / 8
    ({ s with rttVariance := rttVariance, smoothedRtt := smoothedRtt },
     decide (prevRtt ≠ smoothedRtt))

/-- C8 (counterexample): the claim "the function returns true if and only if
SmoothedRtt changed" is false.  On the very first RTT sample the source sets
`RttUpdated = TRUE` unconditionally (connection.c:620); starting from the
freshly zero-initialized connection (SmoothedRtt = 0, connection.c:66) with a
sample of 0 microseconds, the function returns true although SmoothedRtt is
unchanged (0 before and after). -/
theorem QuicConnUpdateRtt_returns_true_without_change :
    (QuicConnUpdateRtt ⟨0, 0, UINT32_MAX, 0, 0, false⟩ 0).2 = true ∧
    (QuicConnUpdateRtt ⟨0, 0, UINT32_MAX, 0, 0, false⟩ 0).1.smoothedRtt = 0 := by
  constructor <;> rfl

/-- C8 (amended): `UpdateRtt(latest)` on the first sample sets
`SmoothedRtt = latest`, `RttVariance = latest/2` and `GotFirstRttSample`, and
returns true unconditionally; on every subsequent sample it sets
`RttVariance = (3·RttVariance + |SmoothedRtt − latest|)/4` and then
`SmoothedRtt = (7·SmoothedRtt + latest)/8` in exact integer arithmetic
(hypotheses h1, h2 rule out 32-bit wraparound), and returns true if and only
if SmoothedRtt changed; MinRtt and MaxRtt are updated against latest
unconditionally. -/
theorem QuicConnUpdateRtt_spec (s : RttState) (l : Nat)
    (h1 : 3 * s.rttVariance + s.smoothedRtt + l < U32_MOD)
    (h2 : 7 * s.smoothedRtt + l < U32_MOD) :
    (QuicConnUpdateRtt s l).1.minRtt = min s.minRtt l ∧
    (QuicConnUpdateRtt s l).1.maxRtt = max s.maxRtt l ∧
    (QuicConnUpdateRtt s l).1.latestRttSample = l ∧
    (s.gotFirstRttSample = false →
      (QuicConnUpdateRtt s l).1.smoothedRtt = l ∧
      (QuicConnUpdateRtt s l).1.rttVariance = l / 2 ∧
      (QuicConnUpdateRtt s l).1.gotFirstRttSample = true ∧
      (QuicConnUpdateRtt s l).2 = true) ∧
    (s.gotFirstRttSample = true →
      (QuicConnUpdateRtt s l).1.rttVariance =
        (3 * s.rttVariance +
          (if l ≤ s.smoothedRtt then s.smoothedRtt - l else l - s.smoothedRtt)) / 4 ∧
      (QuicConnUpdateRtt s l).1.smoothedRtt = (7 * s.smoothedRtt + l) / 8 ∧
      ((QuicConnUpdateRtt s l).2 = true ↔
        (QuicConnUpdateRtt s l).1.smoothedRtt ≠ s.smoothedRtt)) := by
  cases hg : s.gotFirstRttSample with
  | false =>
      refine ⟨?_, ?_, ?_, ?_, ?_⟩ <;>
        simp only [QuicConnUpdateRtt, hg, Bool.not_false, if_true]
      · split <;> omega
      · split <;> omega
      · intro _; simp
      · intro h; exact absurd h (by simp)
  | true =>
      have hvar : 3 * s.rttVariance + s.smoothedRtt - l < U32_MOD := by omega
      have hvar2 : 3 * s.rttVariance + l - s.smoothedRtt < U32_MOD := by omega
      refine ⟨?_, ?_, ?_, ?_, ?_⟩ <;>
        simp only [QuicConnUpdateRtt, hg, Bool.not_true, Bool.false_eq_true, if_false]
      · split <;> omega
      · split <;> omega
      · intro h; exact absurd h (by simp)
      · intro _
        refine ⟨?_, ?_, ?_⟩
        · by_cases h : s.smoothedRtt > l
          · rw [if_pos h, if_pos (by omega : l ≤ s.smoothedRtt),
                Nat.mod_eq_of_lt hvar]
            congr 1
            omega
          · rw [if_neg h, Nat.mod_eq_of_lt hvar2]
            by_cases he : l ≤ s.smoothedRtt
            · rw [if_pos he]
              congr 1
              omega
            · rw [if_neg he]
              congr 1
              omega
        · rw [Nat.mod_eq_of_lt h2]
        · rw [Nat.mod_eq_of_lt h2]
          simp only [decide_eq_true_eq, ne_eq]
          constructor <;> omega

/-- Witness for `QuicConnUpdateRtt_spec` at a concrete state and sample. -/
theorem QuicConnUpdateRtt_spec_witness :
    (3 * 50 + 100 + 80 < U32_MOD ∧ 7 * 100 + 80 < U32_MOD) ∧
    ((QuicConnUpdateRtt ⟨100, 50, 90, 110, 100, true⟩ 80).1.minRtt = min 90 80 ∧
     (QuicConnUpdateRtt ⟨100, 50, 90, 110, 100, true⟩ 80).1.maxRtt = max 110 80 ∧
     (QuicConnUpdateRtt ⟨100, 50, 90, 110, 100, true⟩ 80).1.latestRttSample = 80 ∧
     ((⟨100, 50, 90, 110, 100, true⟩ : RttState).gotFirstRttSample = false →
       (QuicConnUpdateRtt ⟨100, 50, 90, 110, 100, true⟩ 80).1.smoothedRtt = 80 ∧
       (QuicConnUpdateRtt ⟨100, 50, 90, 110, 100, true⟩ 80).1.rttVariance = 80 / 2 ∧
       (QuicConnUpdateRtt ⟨100, 50, 90, 110, 100, true⟩ 80).1.gotFirstRttSample = true ∧
       (QuicConnUpdateRtt ⟨100, 50, 90, 110, 100, true⟩ 80).2 = true) ∧
     ((⟨100, 50, 90, 110, 100, true⟩ : RttState).gotFirstRttSample = true →
       (QuicConnUpdateRtt ⟨100, 50, 90, 110, 100, true⟩ 80).1.rttVariance =
         (3 * 50 + (if 80 ≤ 100 then 100 - 80 else 80 - 100)) / 4 ∧
       (QuicConnUpdateRtt ⟨100, 50, 90, 110, 100, true⟩ 80).1.smoothedRtt =
         (7 * 100 + 80) / 8 ∧
       ((QuicConnUpdateRtt ⟨100, 50, 90, 110, 100, true⟩ 80).2 = true ↔
         (QuicConnUpdateRtt ⟨100, 50, 90, 110, 100, true⟩ 80).1.smoothedRtt ≠ 100))) :=
  ⟨⟨by decide, by decide⟩,
   QuicConnUpdateRtt_spec ⟨100, 50, 90, 110, 100, true⟩ 80 (by decide) (by decide)⟩

/-! ## Receive-queue intake (QuicConnQueueRecvDatagram, connection.c:1791-1845) -/

/-- The receive-intake fields of `QUIC_CONNECTION`.  Datagrams are abstracted
by their (arbitrary) identifiers; `receiveQueueCount` mirrors the separate
`ReceiveQueueCount` counter of the source. -/
structure RecvQueueState where
  receiveQueue : List Nat
  receiveQueueCount : Nat
deriving Repr, DecidableEq

/-- `QuicConnQueueRecvDatagram` (connection.c:1791-1845), with the limit
`QUIC_MAX_RECEIVE_QUEUE_COUNT` (defined outside this file) as a parameter.
The second result is true when the incoming chain was dropped and returned to
the datapath pool ("Max queue limit reached") and false when it was appended
to the intake list.  Callers pass `chain.length` as `DatagramChainLength`;
the source adds that length to the counter after appending. -/
def QuicConnQueueRecvDatagram (maxQueueCount : Nat) (s : RecvQueueState)
    (chain : List Nat) : RecvQueueState × Bool :=
  if s.receiveQueueCount ≥ maxQueueCount then
    (s, true)
  else
    ({ receiveQueue := s.receiveQueue ++ chain
       receiveQueueCount := s.receiveQueueCount + chain.length }, false)

/-- C4 (counterexample): the claim that the intake count never exceeds the
limit — that a chain whose append would exceed the limit is dropped — is
false.  With limit 10, a queue already holding 9 datagrams and an incoming
chain of 2, the source only tests `ReceiveQueueCount >= QUIC_MAX_RECEIVE_QUEUE_COUNT`
(connection.c:1812) before appending, so the chain is enqueued and the count
becomes 11 > 10. -/
theorem QuicConnQueueRecvDatagram_exceeds_limit :
    (QuicConnQueueRecvDatagram 10 ⟨[0, 1, 2, 3, 4, 5, 6, 7, 8], 9⟩ [100, 101]).2 = false ∧
    (QuicConnQueueRecvDatagram 10 ⟨[0, 1, 2, 3, 4, 5, 6, 7, 8], 9⟩ [100, 101]).1.receiveQueueCount = 11 := by
  constructor <;> rfl

/-- C4 (amended): the incoming chain is dropped (and the intake state left
unchanged) precisely when the intake count is already at or above
`QUIC_MAX_RECEIVE_QUEUE_COUNT` when the chain arrives; otherwise the whole
chain is appended, so the count afterwards is strictly below
`limit + chain.length` whenever it was below `limit` before (it can overshoot
the limit by at most `chain.length - 1`). -/
theorem QuicConnQueueRecvDatagram_spec (maxQueueCount : Nat) (s : RecvQueueState)
    (chain : List Nat) (hpre : s.receiveQueueCount < maxQueueCount + chain.length) :
    ((QuicConnQueueRecvDatagram maxQueueCount s chain).2 = true ↔
      maxQueueCount ≤ s.receiveQueueCount) ∧
    ((QuicConnQueueRecvDatagram maxQueueCount s chain).2 = true →
      (QuicConnQueueRecvDatagram maxQueueCount s chain).1 = s) ∧
    ((QuicConnQueueRecvDatagram maxQueueCount s chain).2 = false →
      (QuicConnQueueRecvDatagram maxQueueCount s chain).1.receiveQueue =
        s.receiveQueue ++ chain ∧
      (QuicConnQueueRecvDatagram maxQueueCount s chain).1.receiveQueueCount =
        s.receiveQueueCount + chain.length) ∧
    (QuicConnQueueRecvDatagram maxQueueCount s chain).1.receiveQueueCount <
      maxQueueCount + chain.length := by
  unfold QuicConnQueueRecvDatagram
  by_cases h : s.receiveQueueCount ≥ maxQueueCount
  · rw [if_pos h]
    refine ⟨by simpa using h, fun _ => rfl, by simp, by simpa using hpre⟩
  · rw [if_neg h]
    refine ⟨by simpa using h, by simp, fun _ => ⟨rfl, rfl⟩, by simp; omega⟩

/-- Witness for `QuicConnQueueRecvDatagram_spec` at a concrete intake state. -/
theorem QuicConnQueueRecvDatagram_spec_witness :
    (3 : Nat) < 10 + 2 ∧
    (((QuicConnQueueRecvDatagram 10 ⟨[7, 8, 9], 3⟩ [100, 101]).2 = true ↔
        10 ≤ 3) ∧
     ((QuicConnQueueRecvDatagram 10 ⟨[7, 8, 9], 3⟩ [100, 101]).2 = true →
        (QuicConnQueueRecvDatagram 10 ⟨[7, 8, 9], 3⟩ [100, 101]).1 = ⟨[7, 8, 9], 3⟩) ∧
     ((QuicConnQueueRecvDatagram 10 ⟨[7, 8, 9], 3⟩ [100, 101]).2 = false →
        (QuicConnQueueRecvDatagram 10 ⟨[7, 8, 9], 3⟩ [100, 101]).1.receiveQueue =
          [7, 8, 9] ++ [100, 101] ∧
        (QuicConnQueueRecvDatagram 10 ⟨[7, 8, 9], 3⟩ [100, 101]).1.receiveQueueCount =
          3 + 2) ∧
     (QuicConnQueueRecvDatagram 10 ⟨[7, 8, 9], 3⟩ [100, 101]).1.receiveQueueCount <
       10 + 2) :=
  ⟨by decide, QuicConnQueueRecvDatagram_spec 10 ⟨[7, 8, 9], 3⟩ [100, 101] (by decide)⟩

/-! ## Frame allowability by encryption level (QuicConnRecvPayload, connection.c:2803-2858) -/

/-- QUIC v1 frame-type codes (spec section 6, wire-level contracts; the named
constants live in frame.h, outside src/). -/
def QUIC_FRAME_PADDING : Nat := 0
def QUIC_FRAME_PING : Nat := 1
def QUIC_FRAME_ACK : Nat := 2
def QUIC_FRAME_ACK_1 : Nat := 3
def QUIC_FRAME_CRYPTO : Nat := 6
def QUIC_FRAME_NEW_CONNECTION_ID : Nat := 24
def QUIC_FRAME_RETIRE_CONNECTION_ID : Nat := 25
def QUIC_FRAME_CONNECTION_CLOSE : Nat := 28
def QUIC_FRAME_CONNECTION_CLOSE_1 : Nat := 29
def MAX_QUIC_FRAME : Nat := 29

/-- Transport error code `QUIC_ERROR_FRAME_ENCODING_ERROR` (0x7). -/
def QUIC_ERROR_FRAME_ENCODING_ERROR : Nat := 7
/-- Transport error code `QUIC_ERROR_PROTOCOL_VIOLATION` (0xA). -/
def QUIC_ERROR_PROTOCOL_VIOLATION : Nat := 10

/-- Packet-key types (`QUIC_PACKET_KEY_TYPE`). -/
inductive PacketKeyType where
  | initial
  | zeroRtt
  | handshake
  | oneRtt
deriving Repr, DecidableEq

/-- Encryption levels (`QUIC_ENCRYPT_LEVEL`). -/
inductive EncryptLevel where
  | initial
  | handshake
  | oneRtt
deriving Repr, DecidableEq

/-- Modelled from the spec: `QuicKeyTypeToEncryptLevel` (packet key handling,
outside src/).  0-RTT packets share the 1-RTT packet-number space: the data
model (spec section 3) gives `CurrentKeyPhase` to 1-RTT only, and the source
handles 0-RTT under the non-Initial/Handshake branch of the allowability
check (connection.c:2840), which is reachable only with this mapping. -/
def QuicKeyTypeToEncryptLevel : PacketKeyType → EncryptLevel
  | .initial => .initial
  | .zeroRtt => .oneRtt
  | .handshake => .handshake
  | .oneRtt => .oneRtt

/-- The frame-type validation performed at the top of the payload loop of
`QuicConnRecvPayload` (connection.c:2808-2856): reject unknown frame types
(`FrameType > MAX_QUIC_FRAME`), restrict pre-1-RTT encryption levels to
PADDING / PING / ACK / ACK_1 / CRYPTO / CONNECTION_CLOSE / CONNECTION_CLOSE_1,
and reject ACK / ACK_1 in 0-RTT packets.  `some e` is the transport error
raised (`QuicConnTransportError`), `none` means the frame is accepted for
dispatch. -/
def QuicConnFrameAllowed (keyType : PacketKeyType) (frameType : Nat) : Option Nat :=
  if frameType > MAX_QUIC_FRAME then
    some QUIC_ERROR_FRAME_ENCODING_ERROR
  else if QuicKeyTypeToEncryptLevel keyType ≠ EncryptLevel.oneRtt then
    if frameType = QUIC_FRAME_PADDING ∨ frameType = QUIC_FRAME_PING ∨
       frameType = QUIC_FRAME_ACK ∨ frameType = QUIC_FRAME_ACK_1 ∨
       frameType = QUIC_FRAME_CRYPTO ∨ frameType = QUIC_FRAME_CONNECTION_CLOSE ∨
       frameType = QUIC_FRAME_CONNECTION_CLOSE_1 then
      none
    else
      some QUIC_ERROR_FRAME_ENCODING_ERROR
  else if keyType = PacketKeyType.zeroRtt then
    if frameType = QUIC_FRAME_ACK ∨ frameType = QUIC_FRAME_ACK_1 then
      some QUIC_ERROR_FRAME_ENCODING_ERROR
    else
      none
  else
    none

/-- The allowability skeleton of the payload loop: frame types are checked in
order and the first rejected frame raises its transport error, abandoning the
rest of the payload (the source returns FALSE immediately,
connection.c:2811-2812, 2836-2837, 2848-2849). -/
def QuicConnRecvPayloadAllowCheck (keyType : PacketKeyType) : List Nat → Option Nat
  | [] => none
  | ft :: rest =>
    match QuicConnFrameAllowed keyType ft with
    | some err => some err
    | none => QuicConnRecvPayloadAllowCheck keyType rest

/-- C5 (counterexample): the claim that at the Initial (and Handshake) level
only PADDING, PING, ACK, CRYPTO and the non-application CONNECTION_CLOSE are
accepted is false: the source's allow-list (connection.c:2823-2830) also
admits `QUIC_FRAME_CONNECTION_CLOSE_1` (0x1d), the application variant, which
is accepted at the Initial level without any transport error. -/
theorem connectionCloseApp_allowed_at_initial :
    QuicConnFrameAllowed PacketKeyType.initial QUIC_FRAME_CONNECTION_CLOSE_1 = none ∧
    QuicConnFrameAllowed PacketKeyType.handshake QUIC_FRAME_CONNECTION_CLOSE_1 = none ∧
    QUIC_FRAME_CONNECTION_CLOSE_1 ≠ QUIC_FRAME_PADDING ∧
    QUIC_FRAME_CONNECTION_CLOSE_1 ≠ QUIC_FRAME_PING ∧
    QUIC_FRAME_CONNECTION_CLOSE_1 ≠ QUIC_FRAME_ACK ∧
    QUIC_FRAME_CONNECTION_CLOSE_1 ≠ QUIC_FRAME_ACK_1 ∧
    QUIC_FRAME_CONNECTION_CLOSE_1 ≠ QUIC_FRAME_CRYPTO ∧
    QUIC_FRAME_CONNECTION_CLOSE_1 ≠ QUIC_FRAME_CONNECTION_CLOSE := by
  decide

set_option maxRecDepth 4096 in
/-- C5 (amended): at the Initial and Handshake encryption levels exactly
PADDING, PING, ACK (both 0x02 and 0x03), CRYPTO, and both CONNECTION_CLOSE
variants (0x1c transport and 0x1d application) are accepted; in 0-RTT packets
a frame is rejected exactly when it is an ACK frame or an unknown type; at
1-RTT only unknown types are rejected; every rejection is the immediate
transport error FRAME_ENCODING_ERROR, and the payload loop abandons the rest
of the payload at the first rejected frame.  Frame types are read from a
single payload byte (connection.c:2808), hence range over `Fin 256`. -/
theorem QuicConnRecvPayload_frame_allowability :
    (∀ ft : Fin 256,
      (QuicConnFrameAllowed PacketKeyType.initial ft.val = none ↔
        ft.val = QUIC_FRAME_PADDING ∨ ft.val = QUIC_FRAME_PING ∨
        ft.val = QUIC_FRAME_ACK ∨ ft.val = QUIC_FRAME_ACK_1 ∨
        ft.val = QUIC_FRAME_CRYPTO ∨ ft.val = QUIC_FRAME_CONNECTION_CLOSE ∨
        ft.val = QUIC_FRAME_CONNECTION_CLOSE_1) ∧
      (QuicConnFrameAllowed PacketKeyType.handshake ft.val =
        QuicConnFrameAllowed PacketKeyType.initial ft.val) ∧
      (QuicConnFrameAllowed PacketKeyType.zeroRtt ft.val =
        some QUIC_ERROR_FRAME_ENCODING_ERROR ↔
        ft.val = QUIC_FRAME_ACK ∨ ft.val = QUIC_FRAME_ACK_1 ∨
        MAX_QUIC_FRAME < ft.val) ∧
      (QuicConnFrameAllowed PacketKeyType.oneRtt ft.val =
        some QUIC_ERROR_FRAME_ENCODING_ERROR ↔ MAX_QUIC_FRAME < ft.val) ∧
      (∀ err, QuicConnFrameAllowed PacketKeyType.initial ft.val = some err →
        err = QUIC_ERROR_FRAME_ENCODING_ERROR)) ∧
    (∀ keyType ft rest err, QuicConnFrameAllowed keyType ft = some err →
      QuicConnRecvPayloadAllowCheck keyType (ft :: rest) = some err) := by
  constructor
  · decide
  · intro keyType ft rest err h
    simp [QuicConnRecvPayloadAllowCheck, h]

/-- Witness for `QuicConnRecvPayload_frame_allowability`: instantiates the
abandonment conjunct at a concrete disallowed frame (NEW_CONNECTION_ID in an
Initial packet) followed by further frames that are never examined. -/
theorem QuicConnRecvPayload_frame_allowability_witness :
    QuicConnFrameAllowed PacketKeyType.initial QUIC_FRAME_NEW_CONNECTION_ID =
      some QUIC_ERROR_FRAME_ENCODING_ERROR ∧
    QuicConnRecvPayloadAllowCheck PacketKeyType.initial
      [QUIC_FRAME_NEW_CONNECTION_ID, QUIC_FRAME_PADDING] =
      some QUIC_ERROR_FRAME_ENCODING_ERROR :=
  ⟨by decide,
   QuicConnRecvPayload_frame_allowability.2 PacketKeyType.initial
     QUIC_FRAME_NEW_CONNECTION_ID [QUIC_FRAME_PADDING]
     QUIC_ERROR_FRAME_ENCODING_ERROR (by decide)⟩

/-! ## Packet-number acceptance and duplicate detection
(QuicConnRecvDecryptAndAuthenticate, connection.c:2655-2677, and the epilogue
of QuicConnRecvPayload, connection.c:3332-3357) -/

/-- Modelled from the spec: `QuicAckTrackerAddPacketNumber` (ack_tracker.c,
outside src/).  The tracker records the set of received packet numbers of one
packet-number space; per the spec, "Every received packet number is added to
the ACK tracker at most once (duplicates dropped)".  Returns true when `pn`
is already tracked (the duplicate case, matching the source's use at
connection.c:2660-2662), otherwise records `pn`. -/
def QuicAckTrackerAddPacketNumber (tracker : List Nat) (pn : Nat) :
    Bool × List Nat :=
  if pn ∈ tracker then (true, tracker) else (false, pn :: tracker)

/-- The per-encryption-level packet-space fields used by the receive path
(`QUIC_PACKET_SPACE`): the ACK tracker and `NextRecvPacketNumber`. -/
structure PacketSpace where
  ackTracker : List Nat
  nextRecvPacketNumber : Nat
deriving Repr, DecidableEq

/-- State threaded through the receive of a single packet at one encryption
level: the packet space, the `Stats.Recv.DuplicatePackets` counter, and the
`HandleShutdown` / `HandleClosed` flags observed at the end of the payload
loop (connection.c:3338). -/
structure RecvPacketState where
  space : PacketSpace
  duplicatePackets : Nat
  handleShutdownOrClosed : Bool
deriving Repr, DecidableEq

/-- The packet-number bookkeeping of receiving one decrypted packet:
the duplicate check of `QuicConnRecvDecryptAndAuthenticate`
(connection.c:2655-2677: on a duplicate, `Stats.Recv.DuplicatePackets` is
incremented and the packet dropped — result false) followed, for accepted
packets, by the epilogue of `QuicConnRecvPayload` (connection.c:3332-3357:
unless the connection reached `HandleShutdown`/`HandleClosed` during frame
processing, `NextRecvPacketNumber` is raised to `pn + 1` when `pn` is at or
beyond it).  `frameOk` abstracts whether the payload's frames all decoded and
were allowed (a frame failure returns early with a transport error and never
reaches the epilogue). -/
def QuicConnRecvPacketNumber (s : RecvPacketState) (pn : Nat) (frameOk : Bool) :
    RecvPacketState × Bool :=
  let r := QuicAckTrackerAddPacketNumber s.space.ackTracker pn
  if r.1 then
    ({ s with duplicatePackets := s.duplicatePackets + 1 }, false)
  else
    let s := { s with space := { s.space with ackTracker := r.2 } }
    if !frameOk then
      (s, false)
    else if s.handleShutdownOrClosed then
      (s, true)
    else if s.space.nextRecvPacketNumber ≤ pn then
      ({ s with space := { s.space with nextRecvPacketNumber := pn + 1 } }, true)
    else
      (s, true)

/-- C1: a packet number `pn` not yet tracked, whose payload processes
successfully without shutting the connection down, is accepted: afterwards
`pn` is in the ACK tracker exactly once and `NextRecvPacketNumber > pn`; a
second delivery of the same `pn` is dropped as a duplicate — the tracker and
packet space are unchanged and the duplicate-packet counter is incremented. -/
theorem QuicConnRecvPacketNumber_accept_then_duplicate
    (s : RecvPacketState) (pn : Nat) (frameOk2 : Bool)
    (hnew : pn ∉ s.space.ackTracker)
    (hopen : s.handleShutdownOrClosed = false) :
    (QuicConnRecvPacketNumber s pn true).2 = true ∧
    ((QuicConnRecvPacketNumber s pn true).1.space.ackTracker.count pn = 1) ∧
    pn < (QuicConnRecvPacketNumber s pn true).1.space.nextRecvPacketNumber ∧
    (QuicConnRecvPacketNumber s pn true).1.duplicatePackets = s.duplicatePackets ∧
    ((QuicConnRecvPacketNumber
        (QuicConnRecvPacketNumber s pn true).1 pn frameOk2).2 = false ∧
     (QuicConnRecvPacketNumber
        (QuicConnRecvPacketNumber s pn true).1 pn frameOk2).1.space =
       (QuicConnRecvPacketNumber s pn true).1.space ∧
     (QuicConnRecvPacketNumber
        (QuicConnRecvPacketNumber s pn true).1 pn frameOk2).1.duplicatePackets =
       s.duplicatePackets + 1) := by
  have hmem : (pn ∈ s.space.ackTracker) = False := by simp [hnew]
  have hcount : s.space.ackTracker.count pn = 0 := List.count_eq_zero.mpr hnew
  unfold QuicConnRecvPacketNumber QuicAckTrackerAddPacketNumber
  by_cases hle : s.space.nextRecvPacketNumber ≤ pn <;>
    simp [hmem, hopen, hle, List.count_cons, hcount] <;> omega

/-- Witness for `QuicConnRecvPacketNumber_accept_then_duplicate`: packet
number 5 arrives twice at a space that already saw 0 and 3. -/
theorem QuicConnRecvPacketNumber_accept_then_duplicate_witness :
    ((5 : Nat) ∉ [3, 0] ∧
     (⟨⟨[3, 0], 4⟩, 0, false⟩ : RecvPacketState).handleShutdownOrClosed = false) ∧
    ((QuicConnRecvPacketNumber ⟨⟨[3, 0], 4⟩, 0, false⟩ 5 true).2 = true ∧
     ((QuicConnRecvPacketNumber ⟨⟨[3, 0], 4⟩, 0, false⟩ 5 true).1.space.ackTracker.count 5 = 1) ∧
     5 < (QuicConnRecvPacketNumber ⟨⟨[3, 0], 4⟩, 0, false⟩ 5 true).1.space.nextRecvPacketNumber ∧
     (QuicConnRecvPacketNumber ⟨⟨[3, 0], 4⟩, 0, false⟩ 5 true).1.duplicatePackets = 0 ∧
     ((QuicConnRecvPacketNumber
         (QuicConnRecvPacketNumber ⟨⟨[3, 0], 4⟩, 0, false⟩ 5 true).1 5 true).2 = false ∧
      (QuicConnRecvPacketNumber
         (QuicConnRecvPacketNumber ⟨⟨[3, 0], 4⟩, 0, false⟩ 5 true).1 5 true).1.space =
        (QuicConnRecvPacketNumber ⟨⟨[3, 0], 4⟩, 0, false⟩ 5 true).1.space ∧
      (QuicConnRecvPacketNumber
         (QuicConnRecvPacketNumber ⟨⟨[3, 0], 4⟩, 0, false⟩ 5 true).1 5 true).1.duplicatePackets =
        0 + 1)) :=
  ⟨⟨by decide, rfl⟩,
   QuicConnRecvPacketNumber_accept_then_duplicate ⟨⟨[3, 0], 4⟩, 0, false⟩ 5 true
     (by decide) rfl⟩

/-! ## Destination-CID intake (NEW_CONNECTION_ID, connection.c:3162-3198) -/

/-- A destination connection ID entry (`QUIC_CID_QUIC_LIST_ENTRY`): the CID
bytes, its sequence number, and the stateless-reset token copied from the
frame (connection.c:3182-3187). -/
structure DestCid where
  cid : List Nat
  sequenceNumber : Nat
  hasResetToken : Bool
  resetToken : List Nat
deriving Repr, DecidableEq

/-- A decoded NEW_CONNECTION_ID frame (`QUIC_NEW_CONNECTION_ID_EX`): the
sequence number, the CID bytes (`Buffer[0..Length)`), and the 16-byte
stateless reset token that follows them (`Buffer[Length..Length+16)`). -/
structure NewConnectionIdFrame where
  sequence : Nat
  cid : List Nat
  resetToken : List Nat
deriving Repr, DecidableEq

/-- The destination-CID fields of `QUIC_CONNECTION`: the ordered list and the
separate `DestCIDCount` counter. -/
structure DestCidState where
  destCids : List DestCid
  destCidCount : Nat
deriving Repr, DecidableEq

/-- Processing of one decoded NEW_CONNECTION_ID frame
(connection.c:3162-3198), with `QUIC_ACTIVE_CONNECTION_ID_LIMIT` (defined
outside src/) as the `limit` parameter.  `closed` is the local
`ClosedLocally || ClosedRemotely` flag (connection.c:2795, 3170); `allocOk`
abstracts the success of `QuicCidNewDestination`.  If the count is below the
limit, the new CID is appended at the tail with its sequence number and reset
token and the count is incremented; otherwise the frame is ignored with a
log.  No path raises a transport error. -/
def QuicConnRecvNewConnectionID (limit : Nat) (closed : Bool)
    (s : DestCidState) (f : NewConnectionIdFrame) (allocOk : Bool) : DestCidState :=
  if closed then
    s
  else if s.destCidCount < limit then
    if allocOk then
      { destCids := s.destCids ++ [⟨f.cid, f.sequence, true, f.resetToken⟩]
        destCidCount := s.destCidCount + 1 }
    else
      s
  else
    s

/-- Folding a list of NEW_CONNECTION_ID frames through the receive path, in
order. -/
def QuicConnRecvNewConnectionIDs (limit : Nat) (s : DestCidState)
    (frames : List NewConnectionIdFrame) : DestCidState :=
  frames.foldl (fun st f => QuicConnRecvNewConnectionID limit false st f true) s

/-- Helper: each processed frame (connection open, allocation succeeding)
appends if and only if the count is below the limit at that moment. -/
theorem QuicConnRecvNewConnectionID_append_iff (limit : Nat) (s : DestCidState)
    (f : NewConnectionIdFrame) :
    (s.destCidCount < limit →
      QuicConnRecvNewConnectionID limit false s f true =
        ⟨s.destCids ++ [⟨f.cid, f.sequence, true, f.resetToken⟩],
         s.destCidCount + 1⟩) ∧
    (¬ s.destCidCount < limit →
      QuicConnRecvNewConnectionID limit false s f true = s) := by
  unfold QuicConnRecvNewConnectionID
  constructor <;> intro h <;> simp [h]

/-- Helper: the count after a frame fold from an in-sync state. -/
theorem QuicConnRecvNewConnectionIDs_count (limit : Nat)
    (frames : List NewConnectionIdFrame) :
    ∀ s : DestCidState,
      (QuicConnRecvNewConnectionIDs limit s frames).destCidCount =
        min limit (s.destCidCount + frames.length) ∨
      (limit ≤ s.destCidCount ∧
        (QuicConnRecvNewConnectionIDs limit s frames).destCidCount =
          s.destCidCount) := by
  induction frames with
  | nil =>
      intro s
      by_cases h : limit ≤ s.destCidCount
      · exact Or.inr ⟨h, rfl⟩
      · left
        simp only [QuicConnRecvNewConnectionIDs, List.foldl_nil, List.length_nil]
        omega
  | cons f rest ih =>
      intro s
      by_cases h : s.destCidCount < limit
      · have hstep := (QuicConnRecvNewConnectionID_append_iff limit s f).1 h
        have := ih ⟨s.destCids ++ [⟨f.cid, f.sequence, true, f.resetToken⟩],
          s.destCidCount + 1⟩
        simp only [QuicConnRecvNewConnectionIDs, List.foldl_cons, hstep] at *
        rcases this with h1 | h1
        · left
          simp only [List.length_cons]
          omega
        · left
          simp only [List.length_cons]
          omega
      · have hstep := (QuicConnRecvNewConnectionID_append_iff limit s f).2 h
        have := ih s
        simp only [QuicConnRecvNewConnectionIDs, List.foldl_cons, hstep] at *
        rcases this with h1 | h1
        · simp only [List.length_cons]
          omega
        · right
          exact ⟨by omega, h1.2⟩

/-- Helper: once the count has reached the limit, further frames change
nothing. -/
theorem QuicConnRecvNewConnectionIDs_saturated (limit : Nat)
    (frames : List NewConnectionIdFrame) :
    ∀ s : DestCidState, limit ≤ s.destCidCount →
      QuicConnRecvNewConnectionIDs limit s frames = s := by
  induction frames with
  | nil => intro s _; rfl
  | cons f rest ih =>
      intro s h
      have hstep := (QuicConnRecvNewConnectionID_append_iff limit s f).2 (by omega)
      simp only [QuicConnRecvNewConnectionIDs, List.foldl_cons, hstep] at *
      exact ih s h

/-- Helper: the list of stored destination CIDs after a frame fold: the first
`limit - count` frames are appended, in order, each with its sequence number
and reset token. -/
theorem QuicConnRecvNewConnectionIDs_list (limit : Nat)
    (frames : List NewConnectionIdFrame) :
    ∀ s : DestCidState,
      (QuicConnRecvNewConnectionIDs limit s frames).destCids =
        s.destCids ++ (frames.take (limit - s.destCidCount)).map
          (fun f => ⟨f.cid, f.sequence, true, f.resetToken⟩) := by
  induction frames with
  | nil => intro s; simp [QuicConnRecvNewConnectionIDs]
  | cons f rest ih =>
      intro s
      by_cases h : s.destCidCount < limit
      · have hstep := (QuicConnRecvNewConnectionID_append_iff limit s f).1 h
        simp only [QuicConnRecvNewConnectionIDs, List.foldl_cons, hstep] at *
        rw [ih]
        have htake : limit - s.destCidCount = (limit - (s.destCidCount + 1)) + 1 := by
          omega
        rw [htake]
        simp [List.take_succ_cons]
      · have hstep := (QuicConnRecvNewConnectionID_append_iff limit s f).2 h
        simp only [QuicConnRecvNewConnectionIDs, List.foldl_cons, hstep] at *
        rw [ih]
        have htake : limit - s.destCidCount = 0 := by omega
        simp [htake]

/-- C7: processing NEW_CONNECTION_ID frames with sequences
`1 .. limit + 2` from a connection holding no counted destination CIDs stores
exactly `limit` new destination CIDs — in order, each with its sequence
number and reset token — and the extra frames are ignored (the receive path
has no transport-error outcome for this frame, connection.c:3174-3194); in
general a frame appends a new destination CID if and only if `DestCIDCount`
is below `QUIC_ACTIVE_CONNECTION_ID_LIMIT` when it is processed. -/
theorem QuicConnRecvNewConnectionIDs_capacity (limit : Nat)
    (frames : List NewConnectionIdFrame)
    (hlen : frames.length = limit + 2)
    (hseq : ∀ i (h : i < frames.length), (frames.get ⟨i, h⟩).sequence = i + 1) :
    (QuicConnRecvNewConnectionIDs limit ⟨[], 0⟩ frames).destCidCount = limit ∧
    (QuicConnRecvNewConnectionIDs limit ⟨[], 0⟩ frames).destCids =
      (frames.take limit).map (fun f => ⟨f.cid, f.sequence, true, f.resetToken⟩) ∧
    (QuicConnRecvNewConnectionIDs limit ⟨[], 0⟩ frames).destCids.length = limit ∧
    ((QuicConnRecvNewConnectionIDs limit ⟨[], 0⟩ frames).destCids.map
        DestCid.sequenceNumber = (List.range limit).map (fun i => i + 1)) ∧
    (∀ (s : DestCidState) (f : NewConnectionIdFrame),
      (s.destCidCount < limit →
        QuicConnRecvNewConnectionID limit false s f true =
          ⟨s.destCids ++ [⟨f.cid, f.sequence, true, f.resetToken⟩],
           s.destCidCount + 1⟩) ∧
      (limit ≤ s.destCidCount →
        QuicConnRecvNewConnectionID limit false s f true = s)) := by
  have hcount := QuicConnRecvNewConnectionIDs_count limit frames ⟨[], 0⟩
  have hlist := QuicConnRecvNewConnectionIDs_list limit frames ⟨[], 0⟩
  simp only at hcount hlist
  have hc : (QuicConnRecvNewConnectionIDs limit ⟨[], 0⟩ frames).destCidCount = limit := by
    rcases hcount with h | h
    · rw [h]; omega
    · omega
  have hl : (QuicConnRecvNewConnectionIDs limit ⟨[], 0⟩ frames).destCids =
      (frames.take limit).map (fun f => ⟨f.cid, f.sequence, true, f.resetToken⟩) := by
    rw [hlist]
    simp
  have hlenl : (QuicConnRecvNewConnectionIDs limit ⟨[], 0⟩ frames).destCids.length
      = limit := by
    rw [hl]
    simp only [List.length_map, List.length_take]
    omega
  refine ⟨hc, hl, hlenl, ?_, ?_⟩
  · rw [hl, List.map_map]
    apply List.ext_getElem
    · simp
      omega
    · intro i h1 h2
      have hi : i < frames.length := by
        simp only [List.length_map, List.length_take] at h1
        omega
      simp only [List.getElem_map, List.getElem_take, List.getElem_range,
        Function.comp_apply]
      exact hseq i hi
  · intro s f
    exact ⟨(QuicConnRecvNewConnectionID_append_iff limit s f).1,
      fun h => (QuicConnRecvNewConnectionID_append_iff limit s f).2 (by omega)⟩

/-- Witness for `QuicConnRecvNewConnectionIDs_capacity` with limit 2 and four
frames carrying sequences 1, 2, 3, 4. -/
theorem QuicConnRecvNewConnectionIDs_capacity_witness :
    (([⟨1, [11], [21]⟩, ⟨2, [12], [22]⟩, ⟨3, [13], [23]⟩, ⟨4, [14], [24]⟩] :
        List NewConnectionIdFrame).length = 2 + 2) ∧
    ((QuicConnRecvNewConnectionIDs 2 ⟨[], 0⟩
        [⟨1, [11], [21]⟩, ⟨2, [12], [22]⟩, ⟨3, [13], [23]⟩, ⟨4, [14], [24]⟩]).destCidCount = 2 ∧
     (QuicConnRecvNewConnectionIDs 2 ⟨[], 0⟩
        [⟨1, [11], [21]⟩, ⟨2, [12], [22]⟩, ⟨3, [13], [23]⟩, ⟨4, [14], [24]⟩]).destCids =
       (([⟨1, [11], [21]⟩, ⟨2, [12], [22]⟩, ⟨3, [13], [23]⟩, ⟨4, [14], [24]⟩] :
          List NewConnectionIdFrame).take 2).map
         (fun f => ⟨f.cid, f.sequence, true, f.resetToken⟩) ∧
     (QuicConnRecvNewConnectionIDs 2 ⟨[], 0⟩
        [⟨1, [11], [21]⟩, ⟨2, [12], [22]⟩, ⟨3, [13], [23]⟩, ⟨4, [14], [24]⟩]).destCids.length = 2 ∧
     ((QuicConnRecvNewConnectionIDs 2 ⟨[], 0⟩
          [⟨1, [11], [21]⟩, ⟨2, [12], [22]⟩, ⟨3, [13], [23]⟩, ⟨4, [14], [24]⟩]).destCids.map
        DestCid.sequenceNumber = (List.range 2).map (fun i => i + 1)) ∧
     (∀ (s : DestCidState) (f : NewConnectionIdFrame),
       (s.destCidCount < 2 →
         QuicConnRecvNewConnectionID 2 false s f true =
           ⟨s.destCids ++ [⟨f.cid, f.sequence, true, f.resetToken⟩],
            s.destCidCount + 1⟩) ∧
       (2 ≤ s.destCidCount →
         QuicConnRecvNewConnectionID 2 false s f true = s))) :=
  ⟨by decide,
   QuicConnRecvNewConnectionIDs_capacity 2
     [⟨1, [11], [21]⟩, ⟨2, [12], [22]⟩, ⟨3, [13], [23]⟩, ⟨4, [14], [24]⟩]
     (by decide) (by decide)⟩

/-- C10: NEW_CONNECTION_ID frames are not deduplicated by sequence number:
when `DestCIDCount` is below the limit, a frame whose sequence number equals
that of an already-stored destination CID is still appended (the source
checks only the count, connection.c:3174, never the sequence), incrementing
`DestCIDCount`, so a retransmitted frame consumes capacity toward the
limit. -/
theorem QuicConnRecvNewConnectionID_no_dedup (limit : Nat) (s : DestCidState)
    (f : NewConnectionIdFrame) (d : DestCid)
    (hdup : d ∈ s.destCids) (hseq : d.sequenceNumber = f.sequence)
    (hroom : s.destCidCount < limit) :
    QuicConnRecvNewConnectionID limit false s f true =
      ⟨s.destCids ++ [⟨f.cid, f.sequence, true, f.resetToken⟩],
       s.destCidCount + 1⟩ ∧
    (QuicConnRecvNewConnectionID limit false s f true).destCidCount =
      s.destCidCount + 1 ∧
    ((QuicConnRecvNewConnectionID limit false s f true).destCids.map
        DestCid.sequenceNumber).count f.sequence =
      (s.destCids.map DestCid.sequenceNumber).count f.sequence + 1 := by
  have hstep := (QuicConnRecvNewConnectionID_append_iff limit s f).1 hroom
  refine ⟨hstep, by rw [hstep], ?_⟩
  rw [hstep]
  simp [List.count_append]

/-- Witness for `QuicConnRecvNewConnectionID_no_dedup`: a retransmitted frame
with sequence 1 is stored a second time. -/
theorem QuicConnRecvNewConnectionID_no_dedup_witness :
    ((⟨[11], 1, true, [21]⟩ : DestCid) ∈ [(⟨[11], 1, true, [21]⟩ : DestCid)] ∧
     (⟨[11], 1, true, [21]⟩ : DestCid).sequenceNumber = 1 ∧ (1 : Nat) < 4) ∧
    (QuicConnRecvNewConnectionID 4 false ⟨[⟨[11], 1, true, [21]⟩], 1⟩
        ⟨1, [11], [21]⟩ true =
      ⟨[⟨[11], 1, true, [21]⟩] ++ [⟨[11], 1, true, [21]⟩], 1 + 1⟩ ∧
     (QuicConnRecvNewConnectionID 4 false ⟨[⟨[11], 1, true, [21]⟩], 1⟩
        ⟨1, [11], [21]⟩ true).destCidCount = 1 + 1 ∧
     ((QuicConnRecvNewConnectionID 4 false ⟨[⟨[11], 1, true, [21]⟩], 1⟩
        ⟨1, [11], [21]⟩ true).destCids.map DestCid.sequenceNumber).count 1 =
       (([⟨[11], 1, true, [21]⟩] : List DestCid).map DestCid.sequenceNumber).count 1 + 1) :=
  ⟨⟨by decide, by decide, by decide⟩,
   QuicConnRecvNewConnectionID_no_dedup 4 ⟨[⟨[11], 1, true, [21]⟩], 1⟩
     ⟨1, [11], [21]⟩ ⟨[11], 1, true, [21]⟩ (by decide) (by decide) (by decide)⟩

/-! ## Source-CID retirement (RETIRE_CONNECTION_ID, connection.c:3200-3238,
and QuicConnGenerateNewSourceCid, connection.c:643-711) -/

/-- A source connection ID entry (`QUIC_CID_HASH_ENTRY`): the CID bytes are
abstracted by an identifier. -/
structure SourceCid where
  cid : Nat
  sequenceNumber : Nat
  isInitial : Bool
  needsToSend : Bool
deriving Repr, DecidableEq

/-- The source-CID fields of `QUIC_CONNECTION`. -/
structure SourceCidState where
  sourceCids : List SourceCid
  nextSourceCidSequenceNumber : Nat
  shareBinding : Bool
deriving Repr, DecidableEq

/-- `QuicConnGenerateNewSourceCid` (connection.c:643-711).  The random CID
generation plus insertion into the binding's CID table
(`QuicCidNewRandomSource` / `QuicBindingAddSourceConnectionID`, external
collaborators) is abstracted by `newCidData`: `none` models allocation
failure or exceeding `QUIC_CID_MAX_COLLISION_RETRY` collisions.  Without
`ShareBinding` no CID is generated at all (connection.c:653-659).  The new
CID takes the next sequence number; a non-zero sequence number marks it
`NeedsToSend` (scheduling a NEW_CONNECTION_ID frame); an initial CID is
pushed at the head of the list, a later one appended at the tail
(connection.c:692-708). -/
def QuicConnGenerateNewSourceCid (st : SourceCidState) (newCidData : Option Nat)
    (isInitial : Bool) : SourceCidState × Option SourceCid :=
  if !st.shareBinding then
    (st, none)
  else
    match newCidData with
    | none => (st, none)
    | some data =>
      let newCid : SourceCid :=
        { cid := data
          sequenceNumber := st.nextSourceCidSequenceNumber
          isInitial := isInitial
          needsToSend := decide (0 < st.nextSourceCidSequenceNumber) }
      let st1 :=
        { st with nextSourceCidSequenceNumber := st.nextSourceCidSequenceNumber + 1 }
      if isInitial then
        ({ st1 with sourceCids := newCid :: st1.sourceCids }, some newCid)
      else
        ({ st1 with sourceCids := st1.sourceCids ++ [newCid] }, some newCid)

/-- Modelled from the spec: `QuicConnGetSourceCidFromSeq` (connection.h
inline, outside src/), as used with `RemoveFromList = TRUE` at
connection.c:3213-3218.  Finds the source CID with the given sequence number,
removes it from the list, and returns it with the remaining list; the
caller's `IsLastCid` is whether the remaining list is empty.  Spec:
"RETIRE_CONNECTION_ID: remove the source CID at that sequence; if it was the
last, transport-error PROTOCOL_VIOLATION; else generate a replacement". -/
def QuicConnGetSourceCidFromSeq (cids : List SourceCid) (seq : Nat) :
    Option (SourceCid × List SourceCid) :=
  match cids with
  | [] => none
  | c :: rest =>
    if c.sequenceNumber = seq then
      some (c, rest)
    else
      match QuicConnGetSourceCidFromSeq rest seq with
      | none => none
      | some (f, r) => some (f, c :: r)

/-- Outcome of processing a RETIRE_CONNECTION_ID frame. -/
inductive RetireResult where
  | ignored
  | replaced
  | closedLocally (errorCode : Nat)
deriving Repr, DecidableEq

/-- Processing of one decoded RETIRE_CONNECTION_ID frame
(connection.c:3200-3238).  `closed` is `ClosedLocally || ClosedRemotely`
(connection.c:3208).  When the sequence number matches a stored source CID it
is removed (and freed / removed from the binding); if it was the last source
CID the connection performs a silent local close with PROTOCOL_VIOLATION
(connection.c:3224-3230), otherwise a replacement source CID is generated
(connection.c:3232). -/
def QuicConnRecvRetireConnectionID (st : SourceCidState) (closed : Bool)
    (seq : Nat) (newCidData : Option Nat) : SourceCidState × RetireResult :=
  if closed then
    (st, .ignored)
  else
    match QuicConnGetSourceCidFromSeq st.sourceCids seq with
    | none => (st, .ignored)
    | some (_, rest) =>
      let st1 := { st with sourceCids := rest }
      if rest.isEmpty then
        (st1, .closedLocally QUIC_ERROR_PROTOCOL_VIOLATION)
      else
        ((QuicConnGenerateNewSourceCid st1 newCidData false).1, .replaced)

/-- Helper: the modelled finder removes exactly the first entry carrying the
requested sequence number. -/
theorem QuicConnGetSourceCidFromSeq_spec (seq : Nat) :
    ∀ cids : List SourceCid,
      (QuicConnGetSourceCidFromSeq cids seq = none →
        ∀ c ∈ cids, c.sequenceNumber ≠ seq) ∧
      (∀ c rest, QuicConnGetSourceCidFromSeq cids seq = some (c, rest) →
        c.sequenceNumber = seq ∧ c ∈ cids ∧
        rest = cids.eraseP (fun x => x.sequenceNumber == seq)) := by
  intro cids
  induction cids with
  | nil => exact ⟨fun _ c hc => absurd hc (List.not_mem_nil c), fun c rest h => by
      simp [QuicConnGetSourceCidFromSeq] at h⟩
  | cons a rest ih =>
      constructor
      · intro h c hc
        by_cases ha : a.sequenceNumber = seq
        · simp [QuicConnGetSourceCidFromSeq, ha] at h
        · simp only [QuicConnGetSourceCidFromSeq, ha, if_false] at h
          rcases List.mem_cons.mp hc with rfl | hc2
          · exact ha
          · rcases hfind : QuicConnGetSourceCidFromSeq rest seq with _ | ⟨f, r⟩
            · exact ih.1 hfind c hc2
            · rw [hfind] at h
              simp at h
      · intro c r h
        by_cases ha : a.sequenceNumber = seq
        · simp only [QuicConnGetSourceCidFromSeq, ha, if_true, Option.some.injEq,
            Prod.mk.injEq] at h
          obtain ⟨hc, hr⟩ := h
          subst hc
          subst hr
          refine ⟨ha, List.mem_cons_self a rest, ?_⟩
          simp [List.eraseP_cons, ha]
        · simp only [QuicConnGetSourceCidFromSeq, ha, if_false] at h
          rcases hfind : QuicConnGetSourceCidFromSeq rest seq with _ | ⟨f, rr⟩
          · rw [hfind] at h; simp at h
          · rw [hfind] at h
            simp only [Option.some.injEq, Prod.mk.injEq] at h
            obtain ⟨hcf, hra⟩ := h
            have hspec := ih.2 f rr hfind
            subst hcf
            refine ⟨hspec.1, List.mem_cons_of_mem a hspec.2.1, ?_⟩
            rw [← hra]
            have : (a.sequenceNumber == seq) = false := by
              simp [ha]
            simp [List.eraseP_cons, this, hspec.2.2]

/-- C6: processing a RETIRE_CONNECTION_ID frame whose sequence number matches
a stored source CID removes that CID; if it was the last remaining source CID
the connection enters a local (silent) close with PROTOCOL_VIOLATION, and
otherwise a replacement source CID is generated, carrying the next sequence
number and marked NeedsToSend.  (`d` abstracts the successfully generated
random CID; `ShareBinding` must be set for generation, connection.c:653.) -/
theorem QuicConnRecvRetireConnectionID_spec (st : SourceCidState) (seq d : Nat)
    (c0 : SourceCid) (hmem : c0 ∈ st.sourceCids)
    (hseq : c0.sequenceNumber = seq) (hshare : st.shareBinding = true) :
    (∃ c rest, QuicConnGetSourceCidFromSeq st.sourceCids seq = some (c, rest) ∧
      c.sequenceNumber = seq ∧ c ∈ st.sourceCids ∧
      rest = st.sourceCids.eraseP (fun x => x.sequenceNumber == seq)) ∧
    (st.sourceCids.eraseP (fun x => x.sequenceNumber == seq) = [] →
      QuicConnRecvRetireConnectionID st false seq (some d) =
        ({ st with sourceCids := [] },
         RetireResult.closedLocally QUIC_ERROR_PROTOCOL_VIOLATION)) ∧
    (st.sourceCids.eraseP (fun x => x.sequenceNumber == seq) ≠ [] →
      QuicConnRecvRetireConnectionID st false seq (some d) =
        ({ st with
            sourceCids :=
              st.sourceCids.eraseP (fun x => x.sequenceNumber == seq) ++
                [⟨d, st.nextSourceCidSequenceNumber, false,
                  decide (0 < st.nextSourceCidSequenceNumber)⟩]
            nextSourceCidSequenceNumber := st.nextSourceCidSequenceNumber + 1 },
         RetireResult.replaced)) := by
  have hex : ∃ c rest,
      QuicConnGetSourceCidFromSeq st.sourceCids seq = some (c, rest) := by
    cases h : QuicConnGetSourceCidFromSeq st.sourceCids seq with
    | none =>
        exact absurd hseq
          ((QuicConnGetSourceCidFromSeq_spec seq st.sourceCids).1 h c0 hmem)
    | some p =>
        obtain ⟨c1, r1⟩ := p
        exact ⟨c1, r1, rfl⟩
  obtain ⟨c, rest, hfind⟩ := hex
  have hspec := (QuicConnGetSourceCidFromSeq_spec seq st.sourceCids).2 c rest hfind
  refine ⟨⟨c, rest, hfind, hspec.1, hspec.2.1, hspec.2.2⟩, ?_, ?_⟩
  · intro hempty
    have hrest : rest = [] := by rw [hspec.2.2, hempty]
    simp only [QuicConnRecvRetireConnectionID, Bool.false_eq_true, if_false,
      hfind, hrest, List.isEmpty_nil, if_true]
  · intro hne
    have hrest : rest.isEmpty = false := by
      rw [hspec.2.2]
      cases hcase : st.sourceCids.eraseP (fun x => x.sequenceNumber == seq) with
      | nil => exact absurd hcase hne
      | cons a l => rfl
    simp only [QuicConnRecvRetireConnectionID, Bool.false_eq_true, if_false,
      hfind, hrest, QuicConnGenerateNewSourceCid, hshare, Bool.not_true]
    rw [hspec.2.2]

/-- Witness for `QuicConnRecvRetireConnectionID_spec`: retiring sequence 0
out of two stored source CIDs generates a replacement. -/
theorem QuicConnRecvRetireConnectionID_spec_witness :
    ((⟨7, 0, true, false⟩ : SourceCid) ∈
       [(⟨7, 0, true, false⟩ : SourceCid), ⟨8, 1, false, true⟩] ∧
     (⟨7, 0, true, false⟩ : SourceCid).sequenceNumber = 0 ∧
     (⟨[⟨7, 0, true, false⟩, ⟨8, 1, false, true⟩], 2, true⟩ :
        SourceCidState).shareBinding = true) ∧
    ((∃ c rest,
        QuicConnGetSourceCidFromSeq
          [(⟨7, 0, true, false⟩ : SourceCid), ⟨8, 1, false, true⟩] 0 =
            some (c, rest) ∧
        c.sequenceNumber = 0 ∧
        c ∈ [(⟨7, 0, true, false⟩ : SourceCid), ⟨8, 1, false, true⟩] ∧
        rest = [(⟨7, 0, true, false⟩ : SourceCid), ⟨8, 1, false, true⟩].eraseP
          (fun x => x.sequenceNumber == 0)) ∧
     ([(⟨7, 0, true, false⟩ : SourceCid), ⟨8, 1, false, true⟩].eraseP
        (fun x => x.sequenceNumber == 0) = [] →
       QuicConnRecvRetireConnectionID
         ⟨[⟨7, 0, true, false⟩, ⟨8, 1, false, true⟩], 2, true⟩ false 0 (some 9) =
         ({ (⟨[⟨7, 0, true, false⟩, ⟨8, 1, false, true⟩], 2, true⟩ : SourceCidState)
             with sourceCids := [] },
          RetireResult.closedLocally QUIC_ERROR_PROTOCOL_VIOLATION)) ∧
     ([(⟨7, 0, true, false⟩ : SourceCid), ⟨8, 1, false, true⟩].eraseP
        (fun x => x.sequenceNumber == 0) ≠ [] →
       QuicConnRecvRetireConnectionID
         ⟨[⟨7, 0, true, false⟩, ⟨8, 1, false, true⟩], 2, true⟩ false 0 (some 9) =
         ({ (⟨[⟨7, 0, true, false⟩, ⟨8, 1, false, true⟩], 2, true⟩ : SourceCidState)
             with
             sourceCids :=
               [(⟨7, 0, true, false⟩ : SourceCid), ⟨8, 1, false, true⟩].eraseP
                   (fun x => x.sequenceNumber == 0) ++
                 [⟨9, 2, false, decide (0 < 2)⟩]
             nextSourceCidSequenceNumber := 2 + 1 },
          RetireResult.replaced))) :=
  ⟨⟨by decide, by decide, by decide⟩,
   QuicConnRecvRetireConnectionID_spec
     ⟨[⟨7, 0, true, false⟩, ⟨8, 1, false, true⟩], 2, true⟩ 0 9
     ⟨7, 0, true, false⟩ (by decide) (by decide) (by decide)⟩

/-! ## Close state machine and shutdown-complete notification
(QuicConnTryClose, connection.c:1029-1234; QuicConnProcessShutdownTimerOperation,
connection.c:1236-1253; QuicConnOnShutdownComplete, connection.c:975-1014;
QuicConnCloseHandle, connection.c:432-447; drain epilogue, connection.c:5000-5010) -/

/-- Operation kinds drained by `QuicConnDrainOperations`
(connection.c:4929-4978).  API calls are split by whether they close the
handle (`QUIC_API_TYPE_CONN_CLOSE`); `flushSend` records whether
`QuicSendProcessFlushSendOperation` still has data to send (the re-enqueue
condition, connection.c:4953-4960); timers reaching the drain are the four
non-inline types (connection.c:4865-4877). -/
inductive OperType where
  | apiConnClose
  | apiConnShutdown (silent : Bool)
  | apiOther
  | flushRecv
  | unreachable
  | flushStreamRecv
  | flushSend (moreToSend : Bool)
  | tlsComplete
  | timerExpiredIdle
  | timerExpiredLossDetection
  | timerExpiredKeepAlive
  | timerExpiredShutdown
  | traceRundown
deriving Repr, DecidableEq

/-- The connection state flags relevant to the close machine and the drain
loop, together with the operation queue and a counter of SHUTDOWN_COMPLETE
indications delivered to the application.  All other connection state
(timers, CIDs, packet spaces, …) is carried by the components modelled
elsewhere in this file and is not touched by these functions. -/
structure ConnState where
  closedLocally : Bool
  closedRemotely : Bool
  connected : Bool
  isServer : Bool
  appClosed : Bool
  shutdownCompleteTimedOut : Bool
  sendShutdownCompleteNotif : Bool
  handleShutdown : Bool
  handleClosed : Bool
  externalOwner : Bool
  initializedFlag : Bool
  uninitializedFlag : Bool
  updateWorker : Bool
  shutdownCompleteCount : Nat
  operQ : List OperType
deriving Repr, DecidableEq

/-- `QuicConnTryClose` (connection.c:1029-1234), projected to the state flags
(timer scheduling, send flags, stream shutdown and the CloseStatus /
CloseErrorCode / reason-phrase bookkeeping touch state outside this
structure).  Structure: early return when the requested side is already
closed — except that a forced silent close after a local close promotes
shutdown completion (connection.c:1048-1056); a remote close before
`Connected` on a client forces SILENT (connection.c:1069-1075); the closed
flag of the requested side is then set (connection.c:1149-1153), a first
close defaults `ShutdownCompleteTimedOut` (connection.c:1159) and records
`AppClosed` (connection.c:1178-1180), and finally a silent close or having
both sides closed posts the shutdown-complete notification
(connection.c:1229-1233). -/
def quicConnTryClose (c : ConnState) (remote silent app : Bool) : ConnState :=
  if (remote && c.closedRemotely) || (!remote && c.closedLocally) then
    if silent && c.closedLocally && !c.closedRemotely then
      { c with shutdownCompleteTimedOut := false, sendShutdownCompleteNotif := true }
    else
      c
  else
    let peerClosedFirst := remote && !c.closedLocally
    let locallyClosedFirst := !remote && !c.closedRemotely
    let silent1 := if peerClosedFirst && !c.connected && !c.isServer then true else silent
    let isFirstClose := peerClosedFirst || locallyClosedFirst
    let c1 :=
      if remote then { c with closedRemotely := true }
      else { c with closedLocally := true }
    let c2 :=
      if isFirstClose then
        { c1 with
            shutdownCompleteTimedOut := true
            appClosed := c1.appClosed || app }
      else
        c1
    if silent1 || (c2.closedRemotely && c2.closedLocally) then
      { c2 with shutdownCompleteTimedOut := false, sendShutdownCompleteNotif := true }
    else
      c2

/-- `QuicConnProcessShutdownTimerOperation` (connection.c:1236-1253): the
SHUTDOWN timer expiring promotes the peer to closed and posts the
shutdown-complete notification. -/
def quicConnProcessShutdownTimer (c : ConnState) : ConnState :=
  { c with closedRemotely := true, sendShutdownCompleteNotif := true }

/-- `QuicConnOnShutdownComplete` (connection.c:975-1014): runs at most once
(guarded by `HandleShutdown`); without an external owner it synthesizes a
handle close (connection.c:996-997), otherwise it delivers the
SHUTDOWN_COMPLETE indication (connection.c:1001-1008) — counted here; the
delivery goes through `QuicConnIndicateEvent`, which requires the handle to
be open (connection.c:535). -/
def quicConnOnShutdownComplete (c : ConnState) : ConnState :=
  if c.handleShutdown then
    c
  else
    let c1 := { c with handleShutdown := true }
    if !c1.externalOwner then
      { c1 with handleClosed := true }
    else
      { c1 with shutdownCompleteCount := c1.shutdownCompleteCount + 1 }

/-- The drain epilogue for the notification flag (connection.c:5000-5003):
if `SendShutdownCompleteNotif` is set and the handle is still open, clear
the flag and run `QuicConnOnShutdownComplete`. -/
def quicConnDrainShutdownNotif (c : ConnState) : ConnState :=
  if c.sendShutdownCompleteNotif && !c.handleClosed then
    quicConnOnShutdownComplete { c with sendShutdownCompleteNotif := false }
  else
    c

/-- `QuicConnCloseHandle` (connection.c:432-447), reached from the
`QUIC_API_TYPE_CONN_CLOSE` operation (connection.c:4767-4768); its
`QUIC_TEL_ASSERT` makes a second call a caller error. -/
def quicConnCloseHandle (c : ConnState) : ConnState :=
  { c with handleClosed := true }

/-- The events that can touch the close-machine flags of a connection. -/
inductive CloseEvent where
  | tryClose (remote silent app : Bool)
  | shutdownTimerExpired
  | drainShutdownNotif
  | closeHandle
  | connect
  | setExternalOwner
deriving Repr, DecidableEq

/-- One step of the close machine. -/
def closeStep (c : ConnState) : CloseEvent → ConnState
  | .tryClose r s a => quicConnTryClose c r s a
  | .shutdownTimerExpired => quicConnProcessShutdownTimer c
  | .drainShutdownNotif => quicConnDrainShutdownNotif c
  | .closeHandle => quicConnCloseHandle c
  | .connect => { c with connected := true }
  | .setExternalOwner => { c with externalOwner := true }

/-- The freshly allocated connection (connection.c:66: zeroed memory;
connection.c:148-152: a client is created with an external owner). -/
def initConnState (isServer : Bool) : ConnState :=
  { closedLocally := false
    closedRemotely := false
    connected := false
    isServer := isServer
    appClosed := false
    shutdownCompleteTimedOut := false
    sendShutdownCompleteNotif := false
    handleShutdown := false
    handleClosed := false
    externalOwner := !isServer
    initializedFlag := !isServer
    uninitializedFlag := false
    updateWorker := false
    shutdownCompleteCount := 0
    operQ := [] }

/-- States reachable by the close machine. -/
inductive CloseReachable : ConnState → Prop where
  | init (isServer : Bool) : CloseReachable (initConnState isServer)
  | step (c : ConnState) (e : CloseEvent) :
      CloseReachable c → CloseReachable (closeStep c e)

/-- The shutdown-notification invariant: SHUTDOWN_COMPLETE is delivered at
most once; a delivery implies `QuicConnOnShutdownComplete` ran
(`HandleShutdown`); the notification only ever runs or is pending once one
side is closed; and once both sides are closed the notification is pending or
already done. -/
def CloseInv (c : ConnState) : Prop :=
  c.shutdownCompleteCount ≤ 1 ∧
  (1 ≤ c.shutdownCompleteCount → c.handleShutdown = true) ∧
  (c.handleShutdown = true → c.closedLocally = true ∨ c.closedRemotely = true) ∧
  (c.sendShutdownCompleteNotif = true →
    c.closedLocally = true ∨ c.closedRemotely = true) ∧
  (c.closedLocally = true ∧ c.closedRemotely = true →
    c.sendShutdownCompleteNotif = true ∨ c.handleShutdown = true)

set_option maxHeartbeats 1600000 in
/-- Helper: no close-machine step ever clears `ClosedLocally`,
`ClosedRemotely` or `HandleShutdown`, and the delivery counter never
decreases. -/
theorem closeStep_mono (d : ConnState) (e : CloseEvent) :
    ((closeStep d e).closedLocally = false → d.closedLocally = false) ∧
    ((closeStep d e).closedRemotely = false → d.closedRemotely = false) ∧
    ((closeStep d e).handleShutdown = false → d.handleShutdown = false) ∧
    d.shutdownCompleteCount ≤ (closeStep d e).shutdownCompleteCount := by
  obtain ⟨cl, cr, cn, cs, ca, ct, cno, chs, chc, ce, ci, cu, cw, cc, cq⟩ := d
  cases e with
  | tryClose r s a =>
      cases r <;> cases s <;> cases a <;> cases cl <;> cases cr <;>
        cases cn <;> cases cs <;>
        simp [closeStep, quicConnTryClose]
  | drainShutdownNotif =>
      cases cno <;> cases chc <;> cases chs <;> cases ce <;>
        simp [closeStep, quicConnDrainShutdownNotif, quicConnOnShutdownComplete]
  | _ =>
      simp [closeStep, quicConnProcessShutdownTimer, quicConnCloseHandle]

set_option maxHeartbeats 3000000 in
/-- Helper: `CloseInv` holds initially and is preserved by every step. -/
theorem closeStep_inv (d : ConnState) (e : CloseEvent) (ih : CloseInv d) :
    CloseInv (closeStep d e) := by
  obtain ⟨ih1, ih2, ih3, ih4, ih5⟩ := ih
  obtain ⟨cl, cr, cn, cs, ca, ct, cno, chs, chc, ce, ci, cu, cw, cc, cq⟩ := d
  cases e with
  | tryClose r s a =>
      cases r <;> cases s <;> cases a <;> cases cl <;> cases cr <;>
        cases cn <;> cases cs <;> cases cno <;> cases chs <;>
        simp_all [closeStep, quicConnTryClose, CloseInv]
  | shutdownTimerExpired =>
      cases cl <;> cases cr <;> cases cno <;> cases chs <;>
        simp_all [closeStep, quicConnProcessShutdownTimer, CloseInv]
  | drainShutdownNotif =>
      cases cl <;> cases cr <;> cases cno <;> cases chs <;> cases chc <;>
        cases ce <;>
        simp_all [closeStep, quicConnDrainShutdownNotif,
          quicConnOnShutdownComplete, CloseInv]
  | closeHandle =>
      simp_all [closeStep, quicConnCloseHandle, CloseInv]
  | connect =>
      simp_all [closeStep, CloseInv]
  | setExternalOwner =>
      simp_all [closeStep, CloseInv]

/-- C3: in every reachable state the SHUTDOWN_COMPLETE indication has been
delivered at most once, and only in states where `ClosedLocally` or
`ClosedRemotely` holds (these flags being monotone, it was delivered only
after one of them became true); once both `ClosedLocally` and
`ClosedRemotely` hold, the shutdown-complete notification is pending
(`SendShutdownCompleteNotif`), to be posted by the next drain with an open
handle, or has already been posted, and it is never posted twice
(`HandleShutdown` latches).  The second group of conjuncts gives the
monotonicity of the closed flags, of `HandleShutdown` and of the delivery
counter along every step. -/
theorem quicConnShutdownComplete_once (c : ConnState) (h : CloseReachable c) :
    CloseInv c ∧
    (∀ d e, (closeStep d e).closedLocally = false → d.closedLocally = false) ∧
    (∀ d e, (closeStep d e).closedRemotely = false → d.closedRemotely = false) ∧
    (∀ d e, (closeStep d e).handleShutdown = false → d.handleShutdown = false) ∧
    (∀ d e, d.shutdownCompleteCount ≤ (closeStep d e).shutdownCompleteCount) := by
  refine ⟨?_, fun d e => (closeStep_mono d e).1, fun d e => (closeStep_mono d e).2.1,
    fun d e => (closeStep_mono d e).2.2.1, fun d e => (closeStep_mono d e).2.2.2⟩
  induction h with
  | init isServer =>
      cases isServer <;>
        exact ⟨by decide, by decide, by decide, by decide, by decide⟩
  | step c e hc ih =>
      exact closeStep_inv c e ih

/-- Witness for `quicConnShutdownComplete_once`: a client whose connection
attempt is terminated by the peer (forced silent close) and which then drains
the pending notification, delivering SHUTDOWN_COMPLETE exactly once. -/
theorem quicConnShutdownComplete_once_witness :
    CloseReachable
      (closeStep (closeStep (initConnState false) (CloseEvent.tryClose true false false))
        CloseEvent.drainShutdownNotif) ∧
    (CloseInv
      (closeStep (closeStep (initConnState false) (CloseEvent.tryClose true false false))
        CloseEvent.drainShutdownNotif) ∧
     (∀ d e, (closeStep d e).closedLocally = false → d.closedLocally = false) ∧
     (∀ d e, (closeStep d e).closedRemotely = false → d.closedRemotely = false) ∧
     (∀ d e, (closeStep d e).handleShutdown = false → d.handleShutdown = false) ∧
     (∀ d e, d.shutdownCompleteCount ≤ (closeStep d e).shutdownCompleteCount)) ∧
    (closeStep (closeStep (initConnState false) (CloseEvent.tryClose true false false))
        CloseEvent.drainShutdownNotif).shutdownCompleteCount = 1 :=
  ⟨CloseReachable.step _ _ (CloseReachable.step _ _ (CloseReachable.init false)),
   quicConnShutdownComplete_once _
     (CloseReachable.step _ _ (CloseReachable.step _ _ (CloseReachable.init false))),
   by decide⟩

/-! ## Operation drain loop (QuicConnDrainOperations, connection.c:4884-5016) -/

/-- The dispatch switch of the drain loop (connection.c:4929-4978), projected
to the modelled connection state.  `apiConnClose` is
`QUIC_API_TYPE_CONN_CLOSE` → `QuicConnCloseHandle` (connection.c:4767-4768);
`apiConnShutdown` is `QUIC_API_TYPE_CONN_SHUTDOWN` → `QuicConnShutdown`
(connection.c:366-379), an application-initiated local close;
`timerExpiredIdle` closes silently with STATUS_CONNECTION_IDLE
(connection.c:3824-3838); `timerExpiredShutdown` runs the shutdown-timer
promotion (connection.c:1236-1253).  The remaining operations act on
collaborator state (send, streams, crypto, loss detection, the receive
pipeline) outside this structure and leave these fields unchanged; any effect
they have on the close flags goes through `quicConnTryClose`, covered by the
close machine above. -/
def quicConnDispatchOper (c : ConnState) : OperType → ConnState
  | .apiConnClose => quicConnCloseHandle c
  | .apiConnShutdown silent => quicConnTryClose c false silent true
  | .timerExpiredIdle => quicConnTryClose c false true false
  | .timerExpiredShutdown => quicConnProcessShutdownTimer c
  | _ => c

/-- The drain while-loop (connection.c:4915-4987): while the handle is open,
no worker update is pending and the per-drain operation budget is not
exhausted, dequeue an operation (an empty queue clears `HasMoreWorkToDo` and
exits), dispatch it, and re-enqueue a FLUSH_SEND that still has data to send
(connection.c:4952-4960).  Returns the final state, `HasMoreWorkToDo`, and
the number of operations processed. -/
def QuicConnDrainLoop : Nat → ConnState → ConnState × Bool × Nat
  | 0, c => (c, true, 0)
  | budget + 1, c =>
    if c.handleClosed || c.updateWorker then
      (c, true, 0)
    else
      match c.operQ with
      | [] => (c, false, 0)
      | op :: rest =>
        let c1 := quicConnDispatchOper { c with operQ := rest } op
        let c2 :=
          match op with
          | .flushSend true => { c1 with operQ := c1.operQ ++ [op] }
          | _ => c1
        let r := QuicConnDrainLoop budget c2
        (r.1, r.2.1, r.2.2 + 1)

/-- `QuicConnUninitialize` (connection.c:381-430), projected to the modelled
state: latch `Uninitialized` and force a silent application shutdown
(connection.c:394-398); the remaining cleanup acts on collaborator state. -/
def quicConnUninit (c : ConnState) : ConnState :=
  quicConnTryClose { c with uninitializedFlag := true } false true true

/-- The lazy server initialization at the top of `QuicConnDrainOperations`
(connection.c:4900-4913): an uninitialized (server) connection runs crypto
initialization; on failure `QuicConnFatalError` performs a silent local
close. -/
def quicConnDrainLazyInit (cryptoInitOk : Bool) (c : ConnState) : ConnState :=
  if !c.initializedFlag then
    if cryptoInitOk then { c with initializedFlag := true }
    else quicConnTryClose c false true false
  else
    c

/-- The epilogue of `QuicConnDrainOperations` (connection.c:4989-5010): the
immediate-ACK send flush (connection.c:4989-4998) acts on send state only;
then the shutdown-complete notification check (connection.c:5000-5003); and
when the handle is closed, a one-time uninitialize and `HasMoreWorkToDo =
FALSE` (connection.c:5005-5010). -/
def QuicConnDrainEpilogue (r : ConnState × Bool × Nat) : ConnState × Bool × Nat :=
  let c2 := quicConnDrainShutdownNotif r.1
  if c2.handleClosed then
    (if !c2.uninitializedFlag then quicConnUninit c2 else c2, false, r.2.2)
  else
    (c2, r.2.1, r.2.2)

/-- `QuicConnDrainOperations` (connection.c:4884-5016): lazy initialization,
the bounded drain loop, and the epilogue.  Returns the final state,
`HasMoreWorkToDo`, and the number of operations processed. -/
def QuicConnDrainOperations (maxOperationCount : Nat) (cryptoInitOk : Bool)
    (c : ConnState) : ConnState × Bool × Nat :=
  QuicConnDrainEpilogue
    (QuicConnDrainLoop maxOperationCount (quicConnDrainLazyInit cryptoInitOk c))

/-- Helper: the loop processes at most its budget. -/
theorem QuicConnDrainLoop_count_le (budget : Nat) :
    ∀ c : ConnState, (QuicConnDrainLoop budget c).2.2 ≤ budget := by
  induction budget with
  | zero => intro c; rfl
  | succ n ih =>
      intro c
      unfold QuicConnDrainLoop
      by_cases h : (c.handleClosed || c.updateWorker) = true
      · rw [if_pos h]
        exact Nat.zero_le _
      · rw [if_neg h]
        cases hq : c.operQ with
        | nil => exact Nat.zero_le _
        | cons op rest => exact Nat.succ_le_succ (ih _)


/-- Helper: a drain loop that cleared `HasMoreWorkToDo` observed — and left —
an empty operation queue. -/
theorem QuicConnDrainLoop_false_empty (budget : Nat) :
    ∀ c : ConnState, (QuicConnDrainLoop budget c).2.1 = false →
      (QuicConnDrainLoop budget c).1.operQ = [] := by
  induction budget with
  | zero =>
      intro c h
      simp [QuicConnDrainLoop] at h
  | succ n ih =>
      intro c
      unfold QuicConnDrainLoop
      by_cases h : (c.handleClosed || c.updateWorker) = true
      · rw [if_pos h]
        intro hh
        simp at hh
      · rw [if_neg h]
        cases hq : c.operQ with
        | nil => intro _; exact hq
        | cons op rest => exact ih _


/-- Helper: `QuicConnTryClose` never touches the handle-closed flag or the
operation queue. -/
theorem quicConnTryClose_handleClosed_operQ (c : ConnState) (r s a : Bool) :
    (quicConnTryClose c r s a).handleClosed = c.handleClosed ∧
    (quicConnTryClose c r s a).operQ = c.operQ := by
  obtain ⟨cl, cr, cn, cs, ca, ct, cno, chs, chc, ce, ci, cu, cw, cc, cq⟩ := c
  cases r <;> cases s <;> cases a <;> cases cl <;> cases cr <;> cases cn <;>
    cases cs <;> simp [quicConnTryClose]

/-- Helper: the shutdown-notification check never touches the operation
queue. -/
theorem quicConnDrainShutdownNotif_operQ (c : ConnState) :
    (quicConnDrainShutdownNotif c).operQ = c.operQ := by
  obtain ⟨cl, cr, cn, cs, ca, ct, cno, chs, chc, ce, ci, cu, cw, cc, cq⟩ := c
  cases cno <;> cases chc <;> cases chs <;> cases ce <;>
    simp [quicConnDrainShutdownNotif, quicConnOnShutdownComplete]

/-- Helper: the modelled uninitialize step preserves the handle-closed flag
and the operation queue. -/
theorem quicConnUninit_handleClosed_operQ (c : ConnState) :
    (quicConnUninit c).handleClosed = c.handleClosed ∧
    (quicConnUninit c).operQ = c.operQ := by
  unfold quicConnUninit
  exact quicConnTryClose_handleClosed_operQ _ false true true

/-- Helper: the drain epilogue preserves the operation count and the queue,
returns `HasMoreWork = true` only with the handle open, and passes the loop's
`HasMoreWorkToDo` through whenever the handle ends up open. -/
theorem QuicConnDrainEpilogue_spec (r : ConnState × Bool × Nat) :
    (QuicConnDrainEpilogue r).2.2 = r.2.2 ∧
    (QuicConnDrainEpilogue r).1.operQ = r.1.operQ ∧
    ((QuicConnDrainEpilogue r).2.1 = true →
      (QuicConnDrainEpilogue r).1.handleClosed = false) ∧
    ((QuicConnDrainEpilogue r).1.handleClosed = false →
      (QuicConnDrainEpilogue r).2.1 = r.2.1) := by
  unfold QuicConnDrainEpilogue
  by_cases h1 : (quicConnDrainShutdownNotif r.1).handleClosed = true
  · rw [if_pos h1]
    by_cases h2 : (!(quicConnDrainShutdownNotif r.1).uninitializedFlag) = true
    · rw [if_pos h2]
      refine ⟨rfl, ?_, ?_, ?_⟩
      · rw [(quicConnUninit_handleClosed_operQ _).2, quicConnDrainShutdownNotif_operQ]
      · intro h
        simp at h
      · intro h
        rw [(quicConnUninit_handleClosed_operQ _).1, h1] at h
        cases h
    · rw [if_neg h2]
      refine ⟨rfl, ?_, ?_, ?_⟩
      · rw [quicConnDrainShutdownNotif_operQ]
      · intro h
        simp at h
      · intro h
        rw [h1] at h
        cases h
  · rw [if_neg h1]
    refine ⟨rfl, ?_, ?_, ?_⟩
    · rw [quicConnDrainShutdownNotif_operQ]
    · intro _
      exact Bool.not_eq_true _ ▸ Bool.of_not_eq_true h1
    · intro _
      rfl

/-- C9 (counterexample): the claim that the drain returns `HasMoreWork =
true` iff operations remain queued and the handle is open is false: when the
per-drain budget is exhausted by the last queued operation the loop exits on
the operation count with `HasMoreWorkToDo` still TRUE (connection.c:4915-4923
clears it only on an empty dequeue), so a drain of one TRACE_RUNDOWN
operation with `MaxOperationsPerDrain = 1` returns true with an empty queue
and an open handle. -/
theorem QuicConnDrainOperations_true_with_empty_queue :
    (QuicConnDrainOperations 1 true
      { initConnState false with operQ := [OperType.traceRundown] }).2.1 = true ∧
    (QuicConnDrainOperations 1 true
      { initConnState false with operQ := [OperType.traceRundown] }).1.operQ = [] ∧
    (QuicConnDrainOperations 1 true
      { initConnState false with operQ := [OperType.traceRundown] }).1.handleClosed
      = false := by
  refine ⟨rfl, rfl, rfl⟩

/-- C9 (amended): a single drain invocation processes at most
`MaxOperationsPerDrain` operations; it returns `HasMoreWork = true` only if
the handle is still open at return, and whenever operations remain queued at
return with the handle open it returns true — but exhausting the budget (or a
pending worker update) also returns true even when the queue was emptied, so
`HasMoreWork = true` does not imply that operations remain. -/
theorem QuicConnDrainOperations_spec (maxOps : Nat) (ok : Bool) (c : ConnState) :
    (QuicConnDrainOperations maxOps ok c).2.2 ≤ maxOps ∧
    ((QuicConnDrainOperations maxOps ok c).2.1 = true →
      (QuicConnDrainOperations maxOps ok c).1.handleClosed = false) ∧
    ((QuicConnDrainOperations maxOps ok c).1.operQ ≠ [] →
      (QuicConnDrainOperations maxOps ok c).1.handleClosed = false →
      (QuicConnDrainOperations maxOps ok c).2.1 = true) := by
  have hle := QuicConnDrainLoop_count_le maxOps (quicConnDrainLazyInit ok c)
  have hemp := QuicConnDrainLoop_false_empty maxOps (quicConnDrainLazyInit ok c)
  have hepi := QuicConnDrainEpilogue_spec
    (QuicConnDrainLoop maxOps (quicConnDrainLazyInit ok c))
  obtain ⟨he1, he2, he3, he4⟩ := hepi
  unfold QuicConnDrainOperations
  refine ⟨?_, he3, ?_⟩
  · rw [he1]
    exact hle
  · intro hq hopen
    rw [he4 hopen]
    cases hmore : (QuicConnDrainLoop maxOps (quicConnDrainLazyInit ok c)).2.1 with
    | false =>
        exfalso
        apply hq
        rw [he2]
        exact hemp hmore
    | true => rfl

/-- Witness for `QuicConnDrainOperations_spec`: a drain with budget 1 over a
two-operation queue leaves one operation queued with the handle open, and the
theorem then forces `HasMoreWork = true`. -/
theorem QuicConnDrainOperations_spec_witness :
    (QuicConnDrainOperations 1 true
      { initConnState false with
          operQ := [OperType.traceRundown, OperType.traceRundown] }).1.operQ ≠ [] ∧
    (QuicConnDrainOperations 1 true
      { initConnState false with
          operQ := [OperType.traceRundown, OperType.traceRundown] }).1.handleClosed
      = false ∧
    (QuicConnDrainOperations 1 true
      { initConnState false with
          operQ := [OperType.traceRundown, OperType.traceRundown] }).2.1 = true :=
  ⟨by decide, by decide,
   (QuicConnDrainOperations_spec 1 true
      { initConnState false with
          operQ := [OperType.traceRundown, OperType.traceRundown] }).2.2
     (by decide) (by decide)⟩

/-! ## Timer array (QuicConnTimerSet, connection.c:748-810;
QuicConnTimerCancel, connection.c:812-874; QuicConnTimerExpired,
connection.c:876-948) -/

/-- `QUIC_CONN_TIMER_COUNT`: the timer array has one slot per timer type. -/
def QUIC_CONN_TIMER_COUNT : Nat := 6

/-- The connection timer types (`QUIC_CONN_TIMER_TYPE`), in declaration
order: PACING, ACK_DELAY, LOSS_DETECTION, KEEP_ALIVE, IDLE, SHUTDOWN. -/
inductive TimerType where
  | pacing
  | ackDelay
  | lossDetection
  | keepAlive
  | idle
  | shutdown
deriving Repr, DecidableEq

instance : Fintype TimerType :=
  ⟨⟨[TimerType.pacing, TimerType.ackDelay, TimerType.lossDetection,
     TimerType.keepAlive, TimerType.idle, TimerType.shutdown], by decide⟩,
   fun x => by cases x <;> decide⟩

/-- A timer slot (`QUIC_CONN_TIMER_ENTRY`): type and absolute expiration time
in microseconds (`UINT64_MAX` marks an unused slot). -/
structure TimerEntry where
  type : TimerType
  expirationTime : Nat
deriving Repr, DecidableEq

instance : Inhabited TimerEntry := ⟨⟨TimerType.pacing, 0⟩⟩

/-- `MS_TO_US`: milliseconds to microseconds. -/
def MS_TO_US (x : Nat) : Nat := x * 1000

/-- The index-scanning loop of `QuicConnTimerSet` (connection.c:762-772):
one pass over the array computing `NewIndex` (the first index whose
expiration exceeds the new expiration; the array length when there is none —
thanks to the `i < NewIndex` guard a later match never overrides) and
`CurIndex` (latched at every index holding the timer type, hence the last —
unique under the invariant). -/
def timerSetIndices (ts : List TimerEntry) (t : TimerType) (newExp : Nat) :
    Nat × Nat :=
  (List.range ts.length).foldl
    (fun p i =>
      ((if i < p.1 ∧ newExp < (ts.getD i default).expirationTime then i else p.1),
       (if (ts.getD i default).type = t then i else p.2)))
    (ts.length, 0)

/-- `QuicConnTimerSet` (connection.c:748-810), on a precomputed absolute
expiration time: locate `NewIndex` / `CurIndex`, then either slide the range
between them by one slot and write the entry (connection.c:774-795), or —
when the timer would not move — update the expiration in place
(connection.c:796-802). -/
def QuicConnTimerSet (ts : List TimerEntry) (t : TimerType) (newExp : Nat) :
    List TimerEntry :=
  let newIdx := (timerSetIndices ts t newExp).1
  let curIdx := (timerSetIndices ts t newExp).2
  if newIdx < curIdx then
    ts.take newIdx ++ [⟨t, newExp⟩] ++ (ts.drop newIdx).take (curIdx - newIdx) ++
      ts.drop (curIdx + 1)
  else if curIdx + 1 < newIdx then
    ts.take curIdx ++ (ts.drop (curIdx + 1)).take (newIdx - 1 - curIdx) ++
      [⟨t, newExp⟩] ++ ts.drop newIdx
  else
    ts.set curIdx ⟨(ts.getD curIdx default).type, newExp⟩

/-- `QuicConnTimerSet` with the expiration computed from the current time and
a millisecond delay as in the source (connection.c:756, 64-bit overflow made
explicit). -/
def QuicConnTimerSetDelay (ts : List TimerEntry) (t : TimerType)
    (timeNow delay : Nat) : List TimerEntry :=
  QuicConnTimerSet ts t ((timeNow + MS_TO_US delay) % U64_MOD)

/-- `QuicConnTimerCancel` (connection.c:812-874): scan the valid prefix
(entries with expiration below the sentinel) for the timer type; when found,
either invalidate it in place if no valid timers follow (connection.c:843-848)
or slide the following valid timers forward and park the cancelled slot,
as a sentinel, right after them (connection.c:849-861). -/
def QuicConnTimerCancel (ts : List TimerEntry) (t : TimerType) :
    List TimerEntry :=
  match (ts.takeWhile
      (fun e => !(e.expirationTime == UINT64_MAX))).findIdx?
      (fun e => e.type == t) with
  | none => ts
  | some i =>
    let j := i + 1 +
      ((ts.drop (i + 1)).takeWhile (fun e => !(e.expirationTime == UINT64_MAX))).length
    if j = i + 1 then
      ts.set i ⟨(ts.getD i default).type, UINT64_MAX⟩
    else
      ts.take i ++ (ts.drop (i + 1)).take (j - i - 1) ++
        [⟨t, UINT64_MAX⟩] ++ ts.drop j

/-- `QuicConnTimerExpired` (connection.c:876-948): the leading prefix of
timers whose expiration is at or before `timeNow` is invalidated (the scan at
connection.c:887-891 overwrites their expirations with the sentinel; the
types are saved in `Temp`), the remaining timers are shifted to the front and
the invalidated entries are appended at the tail (connection.c:895-908; when
every slot expired the array is left with the in-place sentinels).  The
processing of the expired timers themselves (connection.c:910-947) posts
operations / flushes sends and does not touch the array. -/
def QuicConnTimerExpired (ts : List TimerEntry) (timeNow : Nat) :
    List TimerEntry :=
  let i := (ts.takeWhile (fun e => e.expirationTime ≤ timeNow)).length
  let expired := (ts.take i).map (fun e => ⟨e.type, UINT64_MAX⟩)
  if i < ts.length then
    ts.drop i ++ expired
  else
    expired

/-- The timer-array invariant (spec section 3 invariant 3, section 4.4): a
fixed array of `QUIC_CONN_TIMER_COUNT` slots, ordered by expiration time
ascending, every expiration a 64-bit value, and at most one slot per timer
type (with six slots and six types, exactly one). -/
@[reducible] def TimersWF (ts : List TimerEntry) : Prop :=
  ts.length = QUIC_CONN_TIMER_COUNT ∧
  ts.Pairwise (fun a b => a.expirationTime ≤ b.expirationTime) ∧
  (∀ e ∈ ts, e.expirationTime ≤ UINT64_MAX) ∧
  (ts.map TimerEntry.type).Nodup

/-- Helper: a fold whose accumulator is a pair of independently updated
components splits into two folds. -/
theorem foldl_prod_indep {α : Type} (l : List α) (f g : Nat → α → Nat) :
    ∀ a b : Nat,
      l.foldl (fun p x => (f p.1 x, g p.2 x)) (a, b) = (l.foldl f a, l.foldl g b) := by
  induction l with
  | nil => intro a b; rfl
  | cons x rest ih => intro a b; exact ih (f a x) (g b x)

/-- Helper: the first-match latch of the `NewIndex` scan
(connection.c:768-771): starting from `N` and taking an index only while it
is below the accumulator, the fold over `0 .. k-1` computes the first index
satisfying `q`, or stays `N` when none exists. -/
theorem latch_first_char (N : Nat) (q : Nat → Prop) [DecidablePred q] :
    ∀ k, k ≤ N →
      ((List.range k).foldl (fun a i => if i < a ∧ q i then i else a) N = N ∧
        ∀ i, i < k → ¬ q i) ∨
      ((List.range k).foldl (fun a i => if i < a ∧ q i then i else a) N < k ∧
        q ((List.range k).foldl (fun a i => if i < a ∧ q i then i else a) N) ∧
        ∀ i, i < (List.range k).foldl (fun a i => if i < a ∧ q i then i else a) N →
          ¬ q i) := by
  intro k
  induction k with
  | zero => intro _; exact Or.inl ⟨rfl, fun i h => absurd h (Nat.not_lt_zero i)⟩
  | succ k ih =>
      intro hk
      have hk2 : k ≤ N := Nat.le_of_succ_le hk
      rw [List.range_succ, List.foldl_append, List.foldl_cons, List.foldl_nil]
      rcases ih hk2 with ⟨hF, hnone⟩ | ⟨hFk, hqF, hmin⟩
      · rw [hF]
        by_cases hq : q k
        · right
          rw [if_pos ⟨Nat.lt_of_succ_le hk, hq⟩]
          exact ⟨Nat.lt_succ_self k, hq, hnone⟩
        · left
          rw [if_neg (fun h => hq h.2)]
          refine ⟨rfl, fun i hi => ?_⟩
          rcases Nat.lt_succ_iff_lt_or_eq.mp hi with h | h
          · exact hnone i h
          · exact h ▸ hq
      · right
        have : ¬ (k < (List.range k).foldl
            (fun a i => if i < a ∧ q i then i else a) N ∧ q k) :=
          fun h => absurd (Nat.lt_trans h.1 hFk) (Nat.lt_irrefl k)
        rw [if_neg this]
        exact ⟨Nat.lt_succ_of_lt hFk, hqF, hmin⟩

/-- Helper: the last-match latch of the `CurIndex` scan
(connection.c:765-767): the fold records the last index satisfying `p`,
staying 0 when none exists. -/
theorem latch_last_char (p : Nat → Prop) [DecidablePred p] :
    ∀ k, ((List.range k).foldl (fun a i => if p i then i else a) 0 = 0 ∧
          ∀ i, i < k → ¬ p i) ∨
         ((List.range k).foldl (fun a i => if p i then i else a) 0 < k ∧
          p ((List.range k).foldl (fun a i => if p i then i else a) 0)) := by
  intro k
  induction k with
  | zero => exact Or.inl ⟨rfl, fun i h => absurd h (Nat.not_lt_zero i)⟩
  | succ k ih =>
      rw [List.range_succ, List.foldl_append, List.foldl_cons, List.foldl_nil]
      by_cases hp : p k
      · right
        rw [if_pos hp]
        exact ⟨Nat.lt_succ_self k, hp⟩
      · rw [if_neg hp]
        rcases ih with ⟨hF, hnone⟩ | ⟨hFk, hpF⟩
        · left
          refine ⟨hF, fun i hi => ?_⟩
          rcases Nat.lt_succ_iff_lt_or_eq.mp hi with h | h
          · exact hnone i h
          · exact h ▸ hp
        · exact Or.inr ⟨Nat.lt_succ_of_lt hFk, hpF⟩

/-- Helper: elements of a sorted list's prefix are related to elements of the
matching suffix. -/
theorem pairwise_take_drop {α : Type} {R : α → α → Prop} {l : List α}
    (h : l.Pairwise R) (n : Nat) :
    ∀ a ∈ l.take n, ∀ b ∈ l.drop n, R a b := by
  have h2 : (l.take n ++ l.drop n).Pairwise R := by
    rw [List.take_append_drop]
    exact h
  exact (List.pairwise_append.mp h2).2.2

/-- Helper: membership in a longer prefix. -/
theorem mem_take_mono {α : Type} (l : List α) {m n : Nat} (h : m ≤ n) {a : α} :
    a ∈ l.take m → a ∈ l.take n :=
  fun ha => (List.take_sublist_take_left l h).subset ha

/-- Helper: membership in a longer suffix. -/
theorem mem_drop_mono {α : Type} (l : List α) {m n : Nat} (h : m ≤ n) {a : α} :
    a ∈ l.drop n → a ∈ l.drop m :=
  fun ha => (List.drop_sublist_drop_left l h).subset ha

/-- Helper: an element of a prefix sits at an index below the cut. -/
theorem mem_take_exists {α : Type} {l : List α} {n : Nat} {a : α}
    (ha : a ∈ l.take n) :
    ∃ m, m < n ∧ ∃ h : m < l.length, l[m] = a := by
  obtain ⟨m, hm, hma⟩ := List.mem_iff_getElem.mp ha
  rw [List.length_take] at hm
  have hm1 : m < n := Nat.lt_of_lt_of_le hm (Nat.min_le_left _ _)
  have hm2 : m < l.length := Nat.lt_of_lt_of_le hm (Nat.min_le_right _ _)
  refine ⟨m, hm1, hm2, ?_⟩
  rw [← hma]
  exact (List.getElem_take l).symm

/-- Helper: an element of a suffix sits at an index past the cut. -/
theorem mem_drop_exists {α : Type} {l : List α} {n : Nat} {a : α}
    (ha : a ∈ l.drop n) :
    ∃ m, ∃ h : n + m < l.length, l[n + m] = a := by
  obtain ⟨m, hm, hma⟩ := List.mem_iff_getElem.mp ha
  rw [List.length_drop] at hm
  have h2 : n + m < l.length := by omega
  refine ⟨m, h2, ?_⟩
  rw [← hma]
  exact (List.getElem_drop l).symm

/-- Helper: six slots, six types, no duplicate types — every timer type is
present (the array is initialized with one slot per type,
connection.c:98-101). -/
theorem timer_types_surjective (ts : List TimerEntry)
    (hlen : ts.length = QUIC_CONN_TIMER_COUNT)
    (hnd : (ts.map TimerEntry.type).Nodup) (t : TimerType) :
    ∃ i, i < ts.length ∧ (ts.getD i default).type = t := by
  have hcard : (ts.map TimerEntry.type).toFinset.card = Fintype.card TimerType := by
    rw [List.toFinset_card_of_nodup hnd, List.length_map, hlen]
    decide
  have huniv := Finset.eq_univ_of_card _ hcard
  have hmem : t ∈ ts.map TimerEntry.type := by
    rw [← List.mem_toFinset, huniv]
    exact Finset.mem_univ t
  obtain ⟨e, he, het⟩ := List.mem_map.mp hmem
  obtain ⟨i, hi, hie⟩ := List.mem_iff_getElem.mp he
  refine ⟨i, hi, ?_⟩
  rw [List.getD_eq_getElem _ _ hi, hie, het]

/-- Helper: characterization of the `QuicConnTimerSet` index scan under the
invariant: `CurIndex` points at the (unique) slot of the requested type and
`NewIndex` is the first index whose expiration exceeds the new expiration
(the array length when there is none). -/
theorem timerSetIndices_char (ts : List TimerEntry) (t : TimerType) (newExp : Nat)
    (hlen : ts.length = QUIC_CONN_TIMER_COUNT)
    (hnd : (ts.map TimerEntry.type).Nodup) :
    ((timerSetIndices ts t newExp).2 < ts.length ∧
      (ts.getD (timerSetIndices ts t newExp).2 default).type = t) ∧
    (timerSetIndices ts t newExp).1 ≤ ts.length ∧
    (∀ i, i < (timerSetIndices ts t newExp).1 →
      (ts.getD i default).expirationTime ≤ newExp) ∧
    ((timerSetIndices ts t newExp).1 < ts.length →
      newExp < (ts.getD (timerSetIndices ts t newExp).1 default).expirationTime) := by
  have hsplit : timerSetIndices ts t newExp =
      ((List.range ts.length).foldl
        (fun a i => if i < a ∧ newExp < (ts.getD i default).expirationTime
          then i else a) ts.length,
       (List.range ts.length).foldl
        (fun a i => if (ts.getD i default).type = t then i else a) 0) := by
    unfold timerSetIndices
    exact foldl_prod_indep (List.range ts.length)
      (fun a i => if i < a ∧ newExp < (ts.getD i default).expirationTime
        then i else a)
      (fun a i => if (ts.getD i default).type = t then i else a) ts.length 0
  constructor
  · rw [hsplit]
    rcases latch_last_char (fun i => (ts.getD i default).type = t) ts.length with
      ⟨_, hnone⟩ | ⟨hlt, hp⟩
    · obtain ⟨i0, hi0, hti⟩ := timer_types_surjective ts hlen hnd t
      exact absurd hti (hnone i0 hi0)
    · exact ⟨hlt, hp⟩
  · rw [hsplit]
    rcases latch_first_char ts.length
        (fun i => newExp < (ts.getD i default).expirationTime) ts.length
        (Nat.le_refl _) with ⟨hF, hnone⟩ | ⟨hFk, hqF, hmin⟩
    · rw [hF]
      exact ⟨Nat.le_refl _,
        fun i hi => Nat.le_of_not_lt (hnone i hi),
        fun h => absurd h (Nat.lt_irrefl _)⟩
    · exact ⟨Nat.le_of_lt hFk,
        fun i hi => Nat.le_of_not_lt (hmin i hi),
        fun _ => hqF⟩

/-- Helper: `QuicConnTimerSet` preserves the timer-array invariant. -/
theorem QuicConnTimerSet_wf (ts : List TimerEntry) (t : TimerType) (newExp : Nat)
    (hwf : TimersWF ts) (hexp : newExp ≤ UINT64_MAX) :
    TimersWF (QuicConnTimerSet ts t newExp) := by
  obtain ⟨hlen, hsort, hbound, hnd⟩ := hwf
  obtain ⟨⟨hC_lt, hC_t⟩, hN_le, hN_min, hN_q⟩ :=
    timerSetIndices_char ts t newExp hlen hnd
  set N := (timerSetIndices ts t newExp).1 with hNdef
  set C := (timerSetIndices ts t newExp).2 with hCdef
  have htake : ∀ a ∈ ts.take N, a.expirationTime ≤ newExp := by
    intro a ha
    obtain ⟨m, hmN, hml, hma⟩ := mem_take_exists ha
    have h := hN_min m hmN
    rwa [List.getD_eq_getElem _ _ hml, hma] at h
  have hdropN : ∀ b ∈ ts.drop N, newExp ≤ b.expirationTime := by
    intro b hb
    obtain ⟨m, hml, hmb⟩ := mem_drop_exists hb
    have hNlt : N < ts.length := by omega
    have hq := hN_q hNlt
    rw [List.getD_eq_getElem _ _ hNlt] at hq
    have hble : ts[N].expirationTime ≤ ts[N + m].expirationTime := by
      rcases Nat.eq_zero_or_pos m with hm0 | hm0
      · subst hm0
        simp
      · exact List.pairwise_iff_getElem.mp hsort N (N + m) hNlt hml (by omega)
    rw [hmb] at hble
    omega
  have hC_t2 : ∀ h : C < ts.length, ts[C].type = t := by
    intro h
    rwa [List.getD_eq_getElem _ _ h] at hC_t
  have hts_cons : ts.drop C = ts[C] :: ts.drop (C + 1) :=
    List.drop_eq_getElem_cons hC_lt
  unfold QuicConnTimerSet
  rw [← hNdef, ← hCdef]
  by_cases h1 : N < C
  · rw [if_pos h1]
    have hM_eq : (ts.drop N).take (C - N) = (ts.take C).drop N :=
      (List.drop_take C N ts).symm
    have hMsub : ∀ b ∈ (ts.drop N).take (C - N), b ∈ ts.drop N :=
      fun b hb => (List.take_sublist _ _).subset hb
    have hMsub2 : ∀ b ∈ (ts.drop N).take (C - N), b ∈ ts.take (C + 1) := by
      intro b hb
      rw [hM_eq] at hb
      exact mem_take_mono ts (Nat.le_succ C) ((List.drop_sublist _ _).subset hb)
    have hTsubN : ∀ b ∈ ts.drop (C + 1), b ∈ ts.drop N :=
      fun b hb => mem_drop_mono ts (by omega) hb
    have hgoal : (ts.take N ++ [⟨t, newExp⟩] ++ (ts.drop N).take (C - N) ++
        ts.drop (C + 1)) =
        ts.take N ++ ([(⟨t, newExp⟩ : TimerEntry)] ++
          ((ts.drop N).take (C - N) ++ ts.drop (C + 1))) := by
      simp [List.append_assoc]
    rw [hgoal]
    refine ⟨?_, ?_, ?_, ?_⟩
    · simp only [List.length_append, List.length_take, List.length_drop,
        List.length_cons, List.length_nil]
      omega
    · rw [List.pairwise_append]
      refine ⟨List.Pairwise.sublist (List.take_sublist _ _) hsort, ?_, ?_⟩
      · rw [List.pairwise_append]
        refine ⟨by simp, ?_, ?_⟩
        · rw [List.pairwise_append]
          refine ⟨List.Pairwise.sublist ((List.take_sublist _ _).trans (List.drop_sublist _ _)) hsort,
            List.Pairwise.sublist (List.drop_sublist _ _) hsort, ?_⟩
          intro a ha b hb
          exact pairwise_take_drop hsort (C + 1) a (hMsub2 a ha) b hb
        · intro a ha b hb
          rcases List.mem_append.mp hb with hb1 | hb2
          · have : a = ⟨t, newExp⟩ := List.mem_singleton.mp ha
            subst this
            exact hdropN b (hMsub b hb1)
          · have : a = ⟨t, newExp⟩ := List.mem_singleton.mp ha
            subst this
            exact hdropN b (hTsubN b hb2)
      · intro a ha b hb
        rcases List.mem_append.mp hb with hb1 | hb2
        · have : b = ⟨t, newExp⟩ := List.mem_singleton.mp hb1
          subst this
          exact htake a ha
        · rcases List.mem_append.mp hb2 with hb3 | hb4
          · exact pairwise_take_drop hsort N a ha b (hMsub b hb3)
          · exact pairwise_take_drop hsort N a ha b (hTsubN b hb4)
    · intro e he
      simp only [List.mem_append, List.mem_singleton] at he
      rcases he with he1 | (he2 | (he3 | he4))
      · exact hbound e ((List.take_sublist _ _).subset he1)
      · rw [he2]
        exact hexp
      · exact hbound e ((List.drop_sublist _ _).subset (hMsub e he3))
      · exact hbound e ((List.drop_sublist _ _).subset he4)
    · have hts_decomp : ts = ts.take N ++ ((ts.drop N).take (C - N) ++
          (ts[C] :: ts.drop (C + 1))) := by
        have h2 : ts.take C = ts.take N ++ (ts.drop N).take (C - N) := by
          have := List.take_add ts N (C - N)
          rwa [Nat.add_sub_cancel' (Nat.le_of_lt h1)] at this
        calc ts = ts.take C ++ ts.drop C := (List.take_append_drop C ts).symm
          _ = ts.take N ++ (ts.drop N).take (C - N) ++ (ts[C] :: ts.drop (C + 1)) := by
              rw [h2, hts_cons]
          _ = ts.take N ++ ((ts.drop N).take (C - N) ++ (ts[C] :: ts.drop (C + 1))) := by
              rw [List.append_assoc]
      have hperm : ((ts.take N ++ ([(⟨t, newExp⟩ : TimerEntry)] ++
          ((ts.drop N).take (C - N) ++ ts.drop (C + 1)))).map TimerEntry.type).Perm
          (ts.map TimerEntry.type) := by
        conv_rhs => rw [hts_decomp]
        simp only [List.map_append, List.map_cons, List.map_nil]
        apply List.Perm.append_left
        have := List.perm_append_comm_assoc [(⟨t, newExp⟩ : TimerEntry).type]
          (((ts.drop N).take (C - N)).map TimerEntry.type)
          ((ts.drop (C + 1)).map TimerEntry.type)
        simp only [List.singleton_append] at this ⊢
        rw [hC_t2 hC_lt]
        exact this
      exact (hperm.nodup_iff).mpr hnd
  · rw [if_neg h1]
    by_cases h2 : C + 1 < N
    · rw [if_pos h2]
      have harith : N - 1 - C = N - (C + 1) := by omega
      have hM2_eq : (ts.drop (C + 1)).take (N - 1 - C) = (ts.take N).drop (C + 1) := by
        rw [harith]
        exact (List.drop_take N (C + 1) ts).symm
      have hM2subN : ∀ b ∈ (ts.drop (C + 1)).take (N - 1 - C), b ∈ ts.take N := by
        intro b hb
        rw [hM2_eq] at hb
        exact (List.drop_sublist _ _).subset hb
      have hM2subC : ∀ b ∈ (ts.drop (C + 1)).take (N - 1 - C), b ∈ ts.drop (C + 1) :=
        fun b hb => (List.take_sublist _ _).subset hb
      have hCsubN : ∀ a ∈ ts.take C, a ∈ ts.take N :=
        fun a ha => mem_take_mono ts (by omega) ha
      have hgoal : (ts.take C ++ (ts.drop (C + 1)).take (N - 1 - C) ++
          [⟨t, newExp⟩] ++ ts.drop N) =
          ts.take C ++ ((ts.drop (C + 1)).take (N - 1 - C) ++
            ([(⟨t, newExp⟩ : TimerEntry)] ++ ts.drop N)) := by
        simp [List.append_assoc]
      rw [hgoal]
      refine ⟨?_, ?_, ?_, ?_⟩
      · simp only [List.length_append, List.length_take, List.length_drop,
          List.length_cons, List.length_nil]
        omega
      · rw [List.pairwise_append]
        refine ⟨List.Pairwise.sublist (List.take_sublist _ _) hsort, ?_, ?_⟩
        · rw [List.pairwise_append]
          refine ⟨List.Pairwise.sublist ((List.take_sublist _ _).trans (List.drop_sublist _ _)) hsort,
            ?_, ?_⟩
          · rw [List.pairwise_append]
            refine ⟨by simp,
              List.Pairwise.sublist (List.drop_sublist _ _) hsort, ?_⟩
            intro a ha b hb
            have : a = ⟨t, newExp⟩ := List.mem_singleton.mp ha
            subst this
            exact hdropN b hb
          · intro a ha b hb
            rcases List.mem_append.mp hb with hb1 | hb2
            · have : b = ⟨t, newExp⟩ := List.mem_singleton.mp hb1
              subst this
              exact htake a (hM2subN a ha)
            · exact pairwise_take_drop hsort N a (hM2subN a ha) b hb2
        · intro a ha b hb
          rcases List.mem_append.mp hb with hb1 | hb2
          · exact pairwise_take_drop hsort (C + 1) a
              (mem_take_mono ts (Nat.le_succ C) ha) b (hM2subC b hb1)
          · rcases List.mem_append.mp hb2 with hb3 | hb4
            · have : b = ⟨t, newExp⟩ := List.mem_singleton.mp hb3
              subst this
              exact htake a (hCsubN a ha)
            · exact pairwise_take_drop hsort N a (hCsubN a ha) b hb4
      · intro e he
        simp only [List.mem_append, List.mem_singleton] at he
        rcases he with he1 | (he2 | (he3 | he4))
        · exact hbound e ((List.take_sublist _ _).subset he1)
        · exact hbound e ((List.drop_sublist _ _).subset (hM2subC e he2))
        · rw [he3]
          exact hexp
        · exact hbound e ((List.drop_sublist _ _).subset he4)
      · have htsC1 : ts.take (C + 1) = ts.take C ++ [ts[C]] := by
          have := List.take_add ts C 1
          rw [hts_cons] at this
          simpa using this
        have hdropsplit : ts.drop (C + 1) =
            (ts.drop (C + 1)).take (N - 1 - C) ++ ts.drop N := by
          have h3 := List.take_append_drop (N - 1 - C) (ts.drop (C + 1))
          rw [List.drop_drop] at h3
          have h4 : C + 1 + (N - 1 - C) = N := by omega
          rw [h4] at h3
          exact h3.symm
        have hts_decomp : ts = ts.take C ++ ([ts[C]] ++
            ((ts.drop (C + 1)).take (N - 1 - C) ++ ts.drop N)) := by
          calc ts = ts.take (C + 1) ++ ts.drop (C + 1) :=
                (List.take_append_drop (C + 1) ts).symm
            _ = ts.take C ++ [ts[C]] ++ ((ts.drop (C + 1)).take (N - 1 - C) ++
                ts.drop N) := by rw [htsC1, ← hdropsplit]
            _ = ts.take C ++ ([ts[C]] ++ ((ts.drop (C + 1)).take (N - 1 - C) ++
                ts.drop N)) := by rw [List.append_assoc]
        have hperm : ((ts.take C ++ ((ts.drop (C + 1)).take (N - 1 - C) ++
            ([(⟨t, newExp⟩ : TimerEntry)] ++ ts.drop N))).map TimerEntry.type).Perm
            (ts.map TimerEntry.type) := by
          conv_rhs => rw [hts_decomp]
          simp only [List.map_append, List.map_cons, List.map_nil]
          apply List.Perm.append_left
          have := (List.perm_append_comm_assoc
            [(ts[C]).type]
            (((ts.drop (C + 1)).take (N - 1 - C)).map TimerEntry.type)
            ((ts.drop N).map TimerEntry.type)).symm
          simp only [List.singleton_append] at this ⊢
          rw [hC_t2 hC_lt]
          rw [hC_t2 hC_lt] at this
          exact this
        exact (hperm.nodup_iff).mpr hnd
    · rw [if_neg h2]
      have hCN : C ≤ N := Nat.le_of_not_lt h1
      have hNC1 : N ≤ C + 1 := Nat.le_of_not_lt h2
      rw [List.set_eq_take_cons_drop _ hC_lt]
      have hdropsub : ∀ b ∈ ts.drop (C + 1), b ∈ ts.drop N :=
        fun b hb => mem_drop_mono ts hNC1 hb
      refine ⟨?_, ?_, ?_, ?_⟩
      · simp only [List.length_append, List.length_take, List.length_cons,
          List.length_drop]
        omega
      · rw [← List.singleton_append, List.pairwise_append]
        refine ⟨List.Pairwise.sublist (List.take_sublist _ _) hsort, ?_, ?_⟩
        · rw [List.pairwise_append]
          refine ⟨by simp,
            List.Pairwise.sublist (List.drop_sublist _ _) hsort, ?_⟩
          intro a ha b hb
          have : a = ⟨(ts.getD C default).type, newExp⟩ := List.mem_singleton.mp ha
          subst this
          exact hdropN b (hdropsub b hb)
        · intro a ha b hb
          rcases List.mem_append.mp hb with hb1 | hb2
          · have : b = ⟨(ts.getD C default).type, newExp⟩ := List.mem_singleton.mp hb1
            subst this
            exact htake a (mem_take_mono ts hCN ha)
          · exact pairwise_take_drop hsort (C + 1) a
              (mem_take_mono ts (Nat.le_succ C) ha) b hb2
      · intro e he
        rw [← List.singleton_append] at he
        simp only [List.mem_append, List.mem_singleton] at he
        rcases he with he1 | (he2 | he3)
        · exact hbound e ((List.take_sublist _ _).subset he1)
        · rw [he2]
          exact hexp
        · exact hbound e ((List.drop_sublist _ _).subset he3)
      · have hts_decomp : ts = ts.take C ++ (ts[C] :: ts.drop (C + 1)) := by
          calc ts = ts.take C ++ ts.drop C := (List.take_append_drop C ts).symm
            _ = ts.take C ++ (ts[C] :: ts.drop (C + 1)) := by rw [hts_cons]
        have htypes : ((ts.take C ++ ⟨(ts.getD C default).type, newExp⟩ ::
            ts.drop (C + 1)).map TimerEntry.type) = ts.map TimerEntry.type := by
          conv_rhs => rw [hts_decomp]
          simp only [List.map_append, List.map_cons]
          rw [List.getD_eq_getElem _ _ hC_lt]
        rw [htypes]
        exact hnd

/-- Helper: in a sorted, bounded timer list whose leading entry is already a
sentinel (empty valid prefix), every entry is a sentinel. -/
theorem sorted_all_max (l : List TimerEntry)
    (hs : l.Pairwise (fun a b => a.expirationTime ≤ b.expirationTime))
    (hb : ∀ e ∈ l, e.expirationTime ≤ UINT64_MAX)
    (hnil : (l.takeWhile (fun e => !(e.expirationTime == UINT64_MAX))).length = 0) :
    ∀ e ∈ l, e.expirationTime = UINT64_MAX := by
  cases l with
  | nil => intro e he; cases he
  | cons c rest =>
      intro e he
      have hc : c.expirationTime = UINT64_MAX := by
        by_contra hne
        have hpc : (!(c.expirationTime == UINT64_MAX)) = true := by
          simp [hne]
        rw [List.takeWhile_cons, if_pos hpc] at hnil
        simp at hnil
      rcases List.mem_cons.mp he with rfl | hrest
      · exact hc
      · have hle := (List.pairwise_cons.mp hs).1 e hrest
        have hub := hb e (List.mem_cons_of_mem c hrest)
        omega

/-- Helper: every entry past the valid prefix of a sorted, bounded timer list
is a sentinel. -/
theorem sorted_dropWhile_max (l : List TimerEntry)
    (hs : l.Pairwise (fun a b => a.expirationTime ≤ b.expirationTime))
    (hb : ∀ e ∈ l, e.expirationTime ≤ UINT64_MAX) :
    ∀ e ∈ l.dropWhile (fun e => !(e.expirationTime == UINT64_MAX)),
      e.expirationTime = UINT64_MAX := by
  induction l with
  | nil => intro e he; cases he
  | cons c rest ih =>
      by_cases hc : (!(c.expirationTime == UINT64_MAX)) = true
      · rw [List.dropWhile_cons, if_pos hc]
        exact ih ((List.pairwise_cons.mp hs).2) (fun e he => hb e (List.mem_cons_of_mem c he))
      · rw [List.dropWhile_cons, if_neg hc]
        intro e he
        have hcmax : c.expirationTime = UINT64_MAX := by
          simpa using hc
        rcases List.mem_cons.mp he with rfl | hrest
        · exact hcmax
        · have hle := (List.pairwise_cons.mp hs).1 e hrest
          have hub := hb e (List.mem_cons_of_mem c hrest)
          omega

/-- Helper: dropping the valid prefix is `dropWhile`. -/
theorem drop_takeWhile_length {α : Type} (l : List α) (p : α → Bool) :
    l.drop ((l.takeWhile p).length) = l.dropWhile p := by
  have h2 := List.drop_left (l.takeWhile p) (l.dropWhile p)
  rwa [List.takeWhile_append_dropWhile] at h2

/-- Helper: `QuicConnTimerCancel` preserves the timer-array invariant. -/
theorem QuicConnTimerCancel_wf (ts : List TimerEntry) (t : TimerType)
    (hwf : TimersWF ts) : TimersWF (QuicConnTimerCancel ts t) := by
  obtain ⟨hlen, hsort, hbound, hnd⟩ := hwf
  unfold QuicConnTimerCancel
  cases hfind : (ts.takeWhile
      (fun e => !(e.expirationTime == UINT64_MAX))).findIdx?
      (fun e => e.type == t) with
  | none => exact ⟨hlen, hsort, hbound, hnd⟩
  | some i =>
      obtain ⟨hi_v, hp, -⟩ := List.findIdx?_eq_some_iff_getElem.mp hfind
      have hvt : ts.takeWhile (fun e => !(e.expirationTime == UINT64_MAX)) =
          ts.take ((ts.takeWhile
            (fun e => !(e.expirationTime == UINT64_MAX))).length) :=
        List.prefix_iff_eq_take.mp (List.takeWhile_prefix _)
      have hi_len : i < ts.length :=
        Nat.lt_of_lt_of_le hi_v (List.takeWhile_prefix _).sublist.length_le
      have hopt : (ts.takeWhile
          (fun e => !(e.expirationTime == UINT64_MAX)))[i]? = ts[i]? := by
        rw [hvt]
        exact List.getElem?_take_of_lt hi_v
      rw [List.getElem?_eq_getElem hi_v, List.getElem?_eq_getElem hi_len] at hopt
      have hvi := Option.some.inj hopt
      rw [hvi] at hp
      have hti : (ts.get ⟨i, hi_len⟩).type = t := by
        have := of_decide_eq_true (by simpa using hp)
        simpa using hp
      have hts_cons : ts.drop i = ts.get ⟨i, hi_len⟩ :: ts.drop (i + 1) := by
        rw [List.get_eq_getElem]
        exact List.drop_eq_getElem_cons hi_len
      set wl := ((ts.drop (i + 1)).takeWhile
        (fun e => !(e.expirationTime == UINT64_MAX))).length with hwl
      show TimersWF (if i + 1 + wl = i + 1 then
        ts.set i ⟨(ts.getD i default).type, UINT64_MAX⟩
        else ts.take i ++ (ts.drop (i + 1)).take (i + 1 + wl - i - 1) ++
          [⟨t, UINT64_MAX⟩] ++ ts.drop (i + 1 + wl))
      have hsort_drop : (ts.drop (i + 1)).Pairwise
          (fun a b => a.expirationTime ≤ b.expirationTime) :=
        List.Pairwise.sublist (List.drop_sublist _ _) hsort
      have hbound_drop : ∀ e ∈ ts.drop (i + 1), e.expirationTime ≤ UINT64_MAX :=
        fun e he => hbound e ((List.drop_sublist _ _).subset he)
      by_cases hj : i + 1 + wl = i + 1
      · rw [if_pos hj]
        have hwl0 : ((ts.drop (i + 1)).takeWhile
            (fun e => !(e.expirationTime == UINT64_MAX))).length = 0 := by
          omega
        have hallmax : ∀ e ∈ ts.drop (i + 1), e.expirationTime = UINT64_MAX :=
          sorted_all_max _ hsort_drop hbound_drop hwl0
        rw [List.set_eq_take_cons_drop _ hi_len]
        refine ⟨?_, ?_, ?_, ?_⟩
        · simp only [List.length_append, List.length_take, List.length_cons,
            List.length_drop]
          omega
        · rw [← List.singleton_append, List.pairwise_append]
          refine ⟨List.Pairwise.sublist (List.take_sublist _ _) hsort, ?_, ?_⟩
          · rw [List.pairwise_append]
            refine ⟨by simp, hsort_drop, ?_⟩
            intro a ha b hb
            have : a = ⟨(ts.getD i default).type, UINT64_MAX⟩ :=
              List.mem_singleton.mp ha
            subst this
            rw [hallmax b hb]
          · intro a ha b hb
            rcases List.mem_append.mp hb with hb1 | hb2
            · have : b = ⟨(ts.getD i default).type, UINT64_MAX⟩ :=
                List.mem_singleton.mp hb1
              subst this
              exact hbound a ((List.take_sublist _ _).subset ha)
            · exact pairwise_take_drop hsort (i + 1) a
                (mem_take_mono ts (Nat.le_succ i) ha) b hb2
        · intro e he
          rw [← List.singleton_append] at he
          simp only [List.mem_append, List.mem_singleton] at he
          rcases he with he1 | (he2 | he3)
          · exact hbound e ((List.take_sublist _ _).subset he1)
          · rw [he2]
          · exact hbound_drop e he3
        · have hts_decomp : ts = ts.take i ++ (ts.get ⟨i, hi_len⟩ :: ts.drop (i + 1)) := by
            calc ts = ts.take i ++ ts.drop i := (List.take_append_drop i ts).symm
              _ = ts.take i ++ (ts.get ⟨i, hi_len⟩ :: ts.drop (i + 1)) := by
                  rw [hts_cons]
          have htypes : ((ts.take i ++ ⟨(ts.getD i default).type, UINT64_MAX⟩ ::
              ts.drop (i + 1)).map TimerEntry.type) = ts.map TimerEntry.type := by
            conv_rhs => rw [hts_decomp]
            simp only [List.map_append, List.map_cons]
            rw [List.getD_eq_getElem _ _ hi_len, List.get_eq_getElem]
          rw [htypes]
          exact hnd
      · rw [if_neg hj]
        have hwl_pos : 0 < wl := by omega
        have h5 : i + 1 + wl - i - 1 = wl := by omega
        rw [h5]
        have hwl_le : wl ≤ ts.length - (i + 1) := by
          have : (List.takeWhile (fun e : TimerEntry => !(e.expirationTime == UINT64_MAX))
              (ts.drop (i + 1))).length ≤ (ts.drop (i + 1)).length :=
            (List.takeWhile_prefix _).sublist.length_le
          rw [List.length_drop] at this
          omega
        have hdropsplit : ts.drop (i + 1 + wl) = (ts.drop (i + 1)).drop wl := by
          rw [List.drop_drop]
        have hdropj_max : ∀ b ∈ ts.drop (i + 1 + wl), b.expirationTime = UINT64_MAX := by
          intro b hb
          rw [hdropsplit, hwl, drop_takeWhile_length] at hb
          exact sorted_dropWhile_max _ hsort_drop hbound_drop b hb
        have hW_mem : ∀ b ∈ (ts.drop (i + 1)).take wl, b ∈ ts.drop (i + 1) :=
          fun b hb => (List.take_sublist _ _).subset hb
        have hgoal : ts.take i ++ (ts.drop (i + 1)).take wl ++
            [⟨t, UINT64_MAX⟩] ++ ts.drop (i + 1 + wl) =
            ts.take i ++ ((ts.drop (i + 1)).take wl ++
              ([(⟨t, UINT64_MAX⟩ : TimerEntry)] ++ ts.drop (i + 1 + wl))) := by
          simp [List.append_assoc]
        rw [hgoal]
        refine ⟨?_, ?_, ?_, ?_⟩
        · simp only [List.length_append, List.length_take, List.length_drop,
            List.length_cons, List.length_nil]
          omega
        · rw [List.pairwise_append]
          refine ⟨List.Pairwise.sublist (List.take_sublist _ _) hsort, ?_, ?_⟩
          · rw [List.pairwise_append]
            refine ⟨List.Pairwise.sublist (List.take_sublist _ _) hsort_drop, ?_, ?_⟩
            · rw [List.pairwise_append]
              refine ⟨by simp,
                List.Pairwise.sublist (List.drop_sublist _ _) hsort, ?_⟩
              intro a ha b hb
              have : a = ⟨t, UINT64_MAX⟩ := List.mem_singleton.mp ha
              subst this
              rw [hdropj_max b hb]
            · intro a ha b hb
              rcases List.mem_append.mp hb with hb1 | hb2
              · have : b = ⟨t, UINT64_MAX⟩ := List.mem_singleton.mp hb1
                subst this
                exact hbound_drop a (hW_mem a ha)
              · rw [hdropj_max b hb2]
                exact hbound_drop a (hW_mem a ha)
          · intro a ha b hb
            rcases List.mem_append.mp hb with hb1 | hb2
            · exact pairwise_take_drop hsort (i + 1) a
                (mem_take_mono ts (Nat.le_succ i) ha) b (hW_mem b hb1)
            · rcases List.mem_append.mp hb2 with hb3 | hb4
              · have : b = ⟨t, UINT64_MAX⟩ := List.mem_singleton.mp hb3
                subst this
                exact hbound a ((List.take_sublist _ _).subset ha)
              · rw [hdropj_max b hb4]
                exact hbound a ((List.take_sublist _ _).subset ha)
        · intro e he
          simp only [List.mem_append, List.mem_singleton] at he
          rcases he with he1 | (he2 | (he3 | he4))
          · exact hbound e ((List.take_sublist _ _).subset he1)
          · exact hbound_drop e (hW_mem e he2)
          · rw [he3]
          · rw [hdropj_max e he4]
        · have htsI1 : ts.take (i + 1) = ts.take i ++ [ts.get ⟨i, hi_len⟩] := by
            have := List.take_add ts i 1
            rw [hts_cons] at this
            simpa using this
          have hWD : ts.drop (i + 1) = (ts.drop (i + 1)).take wl ++
              ts.drop (i + 1 + wl) := by
            rw [hdropsplit]
            exact (List.take_append_drop wl (ts.drop (i + 1))).symm
          have hts_decomp : ts = ts.take i ++ ([ts.get ⟨i, hi_len⟩] ++
              ((ts.drop (i + 1)).take wl ++ ts.drop (i + 1 + wl))) := by
            calc ts = ts.take (i + 1) ++ ts.drop (i + 1) :=
                  (List.take_append_drop (i + 1) ts).symm
              _ = ts.take i ++ [ts.get ⟨i, hi_len⟩] ++
                  ((ts.drop (i + 1)).take wl ++ ts.drop (i + 1 + wl)) := by
                  rw [htsI1, ← hWD]
              _ = ts.take i ++ ([ts.get ⟨i, hi_len⟩] ++
                  ((ts.drop (i + 1)).take wl ++ ts.drop (i + 1 + wl))) := by
                  rw [List.append_assoc]
          have hperm : ((ts.take i ++ ((ts.drop (i + 1)).take wl ++
              ([(⟨t, UINT64_MAX⟩ : TimerEntry)] ++ ts.drop (i + 1 + wl)))).map
                TimerEntry.type).Perm (ts.map TimerEntry.type) := by
            conv_rhs => rw [hts_decomp]
            simp only [List.map_append, List.map_cons, List.map_nil]
            apply List.Perm.append_left
            have := (List.perm_append_comm_assoc
              [(ts.get ⟨i, hi_len⟩).type]
              (((ts.drop (i + 1)).take wl).map TimerEntry.type)
              ((ts.drop (i + 1 + wl)).map TimerEntry.type)).symm
            simp only [List.singleton_append] at this ⊢
            rw [hti] at this
            rw [hti]
            exact this
          exact (hperm.nodup_iff).mpr hnd

/-- Helper: a universally valid relation is pairwise-valid on any list. -/
theorem pairwise_of_forall_rel {α : Type} {R : α → α → Prop} (l : List α)
    (h : ∀ a b, R a b) : l.Pairwise R := by
  induction l with
  | nil => exact List.Pairwise.nil
  | cons a rest ih => exact List.Pairwise.cons (fun b _ => h a b) ih

/-- Helper: `QuicConnTimerExpired` preserves the timer-array invariant. -/
theorem QuicConnTimerExpired_wf (ts : List TimerEntry) (timeNow : Nat)
    (hwf : TimersWF ts) : TimersWF (QuicConnTimerExpired ts timeNow) := by
  obtain ⟨hlen, hsort, hbound, hnd⟩ := hwf
  unfold QuicConnTimerExpired
  set k := (ts.takeWhile (fun e => e.expirationTime ≤ timeNow)).length with hk
  have hk_le : k ≤ ts.length := by
    have : (List.takeWhile (fun e : TimerEntry => e.expirationTime ≤ timeNow)
        ts).length ≤ ts.length :=
      (List.takeWhile_prefix _).sublist.length_le
    omega
  have hmapmax : ∀ b ∈ (ts.take k).map
      (fun e => (⟨e.type, UINT64_MAX⟩ : TimerEntry)), b.expirationTime = UINT64_MAX := by
    intro b hb
    obtain ⟨e, -, hbe⟩ := List.mem_map.mp hb
    rw [← hbe]
  have hmain : TimersWF (ts.drop k ++ (ts.take k).map
      (fun e => (⟨e.type, UINT64_MAX⟩ : TimerEntry))) := by
    refine ⟨?_, ?_, ?_, ?_⟩
    · simp only [List.length_append, List.length_drop, List.length_map,
        List.length_take]
      omega
    · rw [List.pairwise_append]
      refine ⟨List.Pairwise.sublist (List.drop_sublist _ _) hsort, ?_, ?_⟩
      · rw [List.pairwise_map]
        exact pairwise_of_forall_rel _ (fun a b => Nat.le_refl _)
      · intro a ha b hb
        rw [hmapmax b hb]
        exact hbound a ((List.drop_sublist _ _).subset ha)
    · intro e he
      rcases List.mem_append.mp he with he1 | he2
      · exact hbound e ((List.drop_sublist _ _).subset he1)
      · rw [hmapmax e he2]
    · have hcomp : (TimerEntry.type ∘ fun e : TimerEntry =>
          (⟨e.type, UINT64_MAX⟩ : TimerEntry)) = TimerEntry.type :=
        funext (fun e => rfl)
      have htypes : ((ts.drop k ++ (ts.take k).map
          (fun e => (⟨e.type, UINT64_MAX⟩ : TimerEntry))).map TimerEntry.type) =
          (ts.drop k).map TimerEntry.type ++ (ts.take k).map TimerEntry.type := by
        rw [List.map_append, List.map_map, hcomp]
      rw [htypes]
      have hperm : ((ts.drop k).map TimerEntry.type ++
          (ts.take k).map TimerEntry.type).Perm (ts.map TimerEntry.type) := by
        have h1 : (ts.take k).map TimerEntry.type ++
            (ts.drop k).map TimerEntry.type = ts.map TimerEntry.type := by
          rw [← List.map_append, List.take_append_drop]
        have h2 := @List.perm_append_comm TimerType
          ((ts.drop k).map TimerEntry.type) ((ts.take k).map TimerEntry.type)
        rw [h1] at h2
        exact h2
      exact (hperm.nodup_iff).mpr hnd
  by_cases hcase : k < ts.length
  · rw [if_pos hcase]
    exact hmain
  · rw [if_neg hcase]
    have hkl : k = ts.length := by omega
    rw [List.drop_eq_nil_of_le (by omega)] at hmain
    simpa using hmain

/-- C2: the timer-array invariant — sorted by expiration time ascending
(hence, with expirations bounded by the 64-bit sentinel, all unused
`UINT64_MAX` slots at the tail, as the last conjunct makes explicit) and at
most one slot per timer type — is preserved by each of
`TimerSet(type, delay)`, `TimerCancel(type)` and `TimerExpired(now)` applied
to any state satisfying it. -/
theorem QuicConnTimer_ops_preserve_invariant (ts : List TimerEntry)
    (t : TimerType) (timeNow delay expNow : Nat) (hwf : TimersWF ts) :
    TimersWF (QuicConnTimerSetDelay ts t timeNow delay) ∧
    TimersWF (QuicConnTimerCancel ts t) ∧
    TimersWF (QuicConnTimerExpired ts expNow) ∧
    (∀ us : List TimerEntry, TimersWF us →
      us.Pairwise (fun a b => a.expirationTime = UINT64_MAX →
        b.expirationTime = UINT64_MAX)) := by
  refine ⟨?_, QuicConnTimerCancel_wf ts t hwf,
    QuicConnTimerExpired_wf ts expNow hwf, ?_⟩
  · unfold QuicConnTimerSetDelay
    refine QuicConnTimerSet_wf ts t _ hwf ?_
    have h0 : 0 < U64_MOD := by decide
    have := Nat.mod_lt (timeNow + MS_TO_US delay) h0
    simp only [UINT64_MAX, U64_MOD] at this ⊢
    omega
  · intro us hus
    obtain ⟨-, hsort, hbound, -⟩ := hus
    refine List.Pairwise.imp_of_mem ?_ hsort
    intro a b ha hb hle hmax
    have := hbound b hb
    omega

/-- Witness for `QuicConnTimer_ops_preserve_invariant` at the freshly
initialized timer array (connection.c:98-101: one slot per type, all
sentinels). -/
theorem QuicConnTimer_ops_preserve_invariant_witness :
    TimersWF [⟨TimerType.pacing, UINT64_MAX⟩, ⟨TimerType.ackDelay, UINT64_MAX⟩,
      ⟨TimerType.lossDetection, UINT64_MAX⟩, ⟨TimerType.keepAlive, UINT64_MAX⟩,
      ⟨TimerType.idle, UINT64_MAX⟩, ⟨TimerType.shutdown, UINT64_MAX⟩] ∧
    (TimersWF (QuicConnTimerSetDelay
        [⟨TimerType.pacing, UINT64_MAX⟩, ⟨TimerType.ackDelay, UINT64_MAX⟩,
         ⟨TimerType.lossDetection, UINT64_MAX⟩, ⟨TimerType.keepAlive, UINT64_MAX⟩,
         ⟨TimerType.idle, UINT64_MAX⟩, ⟨TimerType.shutdown, UINT64_MAX⟩]
        TimerType.idle 100 30) ∧
     TimersWF (QuicConnTimerCancel
        [⟨TimerType.pacing, UINT64_MAX⟩, ⟨TimerType.ackDelay, UINT64_MAX⟩,
         ⟨TimerType.lossDetection, UINT64_MAX⟩, ⟨TimerType.keepAlive, UINT64_MAX⟩,
         ⟨TimerType.idle, UINT64_MAX⟩, ⟨TimerType.shutdown, UINT64_MAX⟩]
        TimerType.idle) ∧
     TimersWF (QuicConnTimerExpired
        [⟨TimerType.pacing, UINT64_MAX⟩, ⟨TimerType.ackDelay, UINT64_MAX⟩,
         ⟨TimerType.lossDetection, UINT64_MAX⟩, ⟨TimerType.keepAlive, UINT64_MAX⟩,
         ⟨TimerType.idle, UINT64_MAX⟩, ⟨TimerType.shutdown, UINT64_MAX⟩] 50) ∧
     (∀ us : List TimerEntry, TimersWF us →
       us.Pairwise (fun a b => a.expirationTime = UINT64_MAX →
         b.expirationTime = UINT64_MAX))) :=
  ⟨by decide,
   QuicConnTimer_ops_preserve_invariant
     [⟨TimerType.pacing, UINT64_MAX⟩, ⟨TimerType.ackDelay, UINT64_MAX⟩,
      ⟨TimerType.lossDetection, UINT64_MAX⟩, ⟨TimerType.keepAlive, UINT64_MAX⟩,
      ⟨TimerType.idle, UINT64_MAX⟩, ⟨TimerType.shutdown, UINT64_MAX⟩]
     TimerType.idle 100 30 50 (by decide)⟩
